import Mathlib

/-!
ems22a: a driver for daisy-chained EMS22A rotary encoders.

A shallow embedding of `ems22a.c` / `ems22a.h` and the properties of it that
are settled here.

Modelling conventions

* `int` is a 32-bit two's complement integer, `short` a 16-bit one and
  `size_t` a 32-bit unsigned one (the header's example reads `SPI->DR`, a 32-bit
  microcontroller register).  Values are `Int`/`Nat`; the places where C narrows
  or may wrap go through `int_wrap`, `to_short` and `SIZE_MOD`.
* Bit-fields of `frame` are allocated from the least significant bit of the
  `uint16_t` storage unit in declaration order (the layout for which the
  sensor's wire format, ten data bits first and the parity bit last, lines up
  with the declared fields).
* `check(A, ...)` of `zed_dbg.h` is `if (!(A)) { log; goto error; }`.  Logging
  is not modelled.
* `malloc` is taken to succeed; the `check_mem` branches are not modelled.
* The transport callbacks are external code.  A callback is identified by the
  address held in the function pointer (`0` is `NULL`); what a call returns is
  given by a `transport`, a function of all callback calls made so far and the
  present call.  Callbacks do not call back into the driver.
* The calls made to the callbacks are recorded in the ghost field `calls`.
* The array `instances` is a list; an index beyond it reads as `NULL`.  The
  initial state has `EMS22A_MAX_INSTANCES` entries and no function changes
  their number.
-/

namespace Ems22a

/-! ## ems22a.h -/

/-- Capacity of the instance table (`#define EMS22A_MAX_INSTANCES 3`). -/
def EMS22A_MAX_INSTANCES : Int := 3

/-- Bound on the chain length (`#define EMS22A_MAX_DAISY_CHAIN 5`). -/
def EMS22A_MAX_DAISY_CHAIN : Int := 5

/-- Return codes, in the order of the C enumeration (values 0 to 4). -/
inductive ems22a_rc_t
  | EMS22A_OK
  | EMS22A_BAD_SETTINGS
  | EMS22A_WARNING
  | EMS22A_FAILURE
  | EMS22A_WRONG_PARITY
  deriving DecidableEq, Repr

open ems22a_rc_t

/-- Numeric value of a return code. -/
def ems22a_rc_t.toInt : ems22a_rc_t → Int
  | EMS22A_OK => 0
  | EMS22A_BAD_SETTINGS => 1
  | EMS22A_WARNING => 2
  | EMS22A_FAILURE => 3
  | EMS22A_WRONG_PARITY => 4

/-! ## Machine integers -/

/-- Reduction of a mathematical integer to a 32-bit `int`. -/
def int_wrap (x : Int) : Int := (x + 2147483648) % 4294967296 - 2147483648

/-- Conversion of an `int` to `short` (16 bits). -/
def to_short (x : Int) : Int := (x + 32768) % 65536 - 32768

/-- Number of values of `size_t`. -/
def SIZE_MOD : Nat := 4294967296

/-! ## The frame -/

/-- The ems22 frame: a `uint16_t` storage unit overlaid with bit-fields. -/
structure frame where
  data : Nat
  deriving DecidableEq, Repr

/-- Bit 0: `parity : 1`. -/
def frame.parity (f : frame) : Nat := f.data % 2

/-- Bit 1: `mag_decrease : 1`. -/
def frame.mag_decrease (f : frame) : Nat := f.data / 2 % 2

/-- Bit 2: `mag_increase : 1`. -/
def frame.mag_increase (f : frame) : Nat := f.data / 4 % 2

/-- Bit 3: `linearity_alarm : 1`. -/
def frame.linearity_alarm (f : frame) : Nat := f.data / 8 % 2

/-- Bit 4: `cordic_oflow : 1`. -/
def frame.cordic_oflow (f : frame) : Nat := f.data / 16 % 2

/-- Bit 5: `end_offst_comp : 1`. -/
def frame.end_offst_comp (f : frame) : Nat := f.data / 32 % 2

/-- Bits 6 to 15: `reading : 10`. -/
def frame.reading (f : frame) : Nat := f.data / 64 % 1024

/-- Cast of the frame to the `uint16_t` it is (`frame2data`). -/
def frame2data (f : frame) : Nat := f.data % 65536

/-! ## The instance -/

/-- The ems22 instance control block (`instance` in the C source). -/
structure instance_t where
  initf : Nat
  readf : Nat
  deinitf : Nat
  readings : List Int
  zeroes : List Int
  n_daisy_chain : Int
  lock : Int
  disable_parity_checks : Int
  comment : Option String
  deriving DecidableEq, Repr

/-! ## Frame decoding -/

/-- The statement `return EMS22A_OK;` is the first one of `check_parity`
(ems22a.c:242): whatever the frame, the function returns `EMS22A_OK` and the
counting loop and the comparison below it are never run. -/
def check_parity (_f : frame) : ems22a_rc_t := EMS22A_OK

/-- The counting loop of `check_parity` (ems22a.c:247-251), which the function
never reaches: `k` iterations from bit `i` on, `parity_counter` so far. -/
def parity_count_loop (frame_r : Nat) : Nat → Nat → Nat → Nat
  | 0, _, parity_counter => parity_counter
  | k + 1, i, parity_counter =>
    let mask := (1 <<< i) % 65536
    if frame_r &&& mask ≠ 0 then parity_count_loop frame_r k (i + 1) (parity_counter + 1)
    else parity_count_loop frame_r k (i + 1) parity_counter

/-- Number of set bits among the 16 bits of the frame, as the loop of
`check_parity` would count them. -/
def parity_counter (f : frame) : Nat := parity_count_loop (frame2data f) 16 0 0

/-- The comparison at the end of `check_parity` (ems22a.c:255-259), which the
function never reaches. -/
def check_parity_unreached (f : frame) : ems22a_rc_t :=
  if parity_counter f % 2 = f.parity then EMS22A_OK else EMS22A_WRONG_PARITY

/-- Decoding of a frame (`reading2angle`): the return code and the value
written to `*angle_out`.  Both pointers are those of locals of the only
caller and are not `NULL`. -/
def reading2angle (inst : instance_t) (f : frame) : ems22a_rc_t × Int :=
  if inst.disable_parity_checks = 0 ∧ check_parity f ≠ EMS22A_OK then
    (EMS22A_FAILURE, 0)
  else if f.cordic_oflow ≠ 0 ∨ f.linearity_alarm ≠ 0 then
    (EMS22A_FAILURE, 0)
  else
    (EMS22A_OK, Int.tdiv (int_wrap (360 * (f.reading : Int))) 1024)

/-! ## Transport callbacks -/

/-- The member of the instance through which a callback is called. -/
inductive cb_kind
  | init
  | read
  | deinit
  deriving DecidableEq, Repr

/-- One call of a transport callback: the member used, the address called and
the `id` argument. -/
structure cb_call where
  kind : cb_kind
  fn : Nat
  id : Int
  deriving DecidableEq, Repr

/-- What a callback call gives back: the `int` it returns and, for a read,
the 16 bits found at `*reading_out` once it has returned. -/
structure cb_reply where
  rc : Int
  data : Nat
  deriving DecidableEq, Repr

/-- Behaviour of the host's callbacks: the reply to a call, given the calls
made before it. -/
abbrev transport := List cb_call → cb_call → cb_reply

/-! ## Module state -/

/-- Value of one entry of `instances[]`: `NULL`, a pointer to an allocated
instance, or a pointer whose instance has been passed to `free`. -/
inductive inst_ptr
  | null
  | valid (inst : instance_t)
  | freed
  deriving DecidableEq, Repr

/-- The global module variables `instances` and `n_instances`, with the ghost
record `calls` of the callback calls made so far. -/
structure driver where
  instances : List inst_ptr
  n_instances : Nat
  calls : List cb_call
  deriving DecidableEq, Repr

/-- The state at program start: `instances = {NULL}`, `n_instances = 0`. -/
def driver.initial : driver :=
  { instances := [inst_ptr.null, inst_ptr.null, inst_ptr.null], n_instances := 0, calls := [] }

/-- Read of `instances[j]`. -/
def driver.slot (s : driver) (j : Nat) : inst_ptr := s.instances.getD j inst_ptr.null

/-- How a call of a driver function ends: it returns, it never returns (the
busy wait on a set `lock`), or it runs into undefined behaviour (use of a
freed or uninitialised instance pointer, call through a `NULL` callback). -/
inductive outcome (α : Type)
  | ret (a : α)
  | spins
  | undef
  deriving DecidableEq, Repr

/-! ## External interface -/

/-- The scan for a free entry in `ems22a_instance_start` (ems22a.c:110-116):
`k` iterations from index `j` on; `-1` when no entry is `NULL`. -/
def free_inst_scan (s : driver) : Nat → Nat → Int
  | 0, _ => -1
  | k + 1, j => if s.slot j = inst_ptr.null then (j : Int) else free_inst_scan s k (j + 1)

/-- The function `ems22a_instance_start`: the returned `int` and the state it leaves. -/
def ems22a_instance_start (env : transport) (initf readf deinitf : Nat)
    (n_daisy_chain : Int) (comment_string : Option String) (no_parity_control : Int)
    (s : driver) : Int × driver :=
  if ¬ (initf ≠ 0 ∧ readf ≠ 0 ∧ deinitf ≠ 0) then (-1, s)
  else if ¬ (n_daisy_chain > 0 ∧ n_daisy_chain < EMS22A_MAX_INSTANCES) then (-1, s)
  else
    let free_inst := free_inst_scan s EMS22A_MAX_INSTANCES.toNat 0
    if ¬ (free_inst ≠ -1) then (-1, s)
    else
      let s1 := { s with n_instances := (s.n_instances + 1) % SIZE_MOD }
      if ¬ ((s1.n_instances : Int) ≤ EMS22A_MAX_INSTANCES) then (-1, s1)
      else
        let inst : instance_t :=
          { initf := initf, readf := readf, deinitf := deinitf,
            readings := List.replicate n_daisy_chain.toNat 0,
            zeroes := List.replicate n_daisy_chain.toNat 0,
            n_daisy_chain := n_daisy_chain, lock := 1,
            disable_parity_checks := no_parity_control,
            comment := comment_string }
        let c : cb_call := { kind := cb_kind.init, fn := inst.initf, id := free_inst }
        let rr := (env s1.calls c).rc
        let s2 := { s1 with calls := s1.calls ++ [c] }
        if ¬ (rr = 0) then
          let d : cb_call := { kind := cb_kind.deinit, fn := inst.deinitf, id := free_inst }
          (-1, { s2 with calls := s2.calls ++ [d] })
        else
          let p := inst_ptr.valid { inst with lock := 0 }
          (free_inst, { s2 with instances := s2.instances.set free_inst.toNat p })

/-- The call `inst->readf(i, &f)` made by an update cycle on entry `i`. -/
def read_call (inst : instance_t) (i : Int) : cb_call :=
  { kind := cb_kind.read, fn := inst.readf, id := i }

/-- The loop over the chain in `ems22a_update_instance` (ems22a.c:311-331):
`k` iterations from position `j` on, carrying the calls made, the buffer
`inst->readings` and the counter `failed`.  The buffer has `n_daisy_chain`
elements in every state the driver builds, so the store to `readings[j]` lands
inside it; the statements below that depend on it assume that length. -/
def poll_chain (env : transport) (i : Int) (inst : instance_t) :
    Nat → Nat → List cb_call → List Int → Nat → List cb_call × List Int × Nat
  | 0, _, calls, readings, failed => (calls, readings, failed)
  | k + 1, j, calls, readings, failed =>
    let c := read_call inst i
    let r := env calls c
    if r.rc ≠ 0 then
      poll_chain env i inst k (j + 1) (calls ++ [c]) readings (failed + 1)
    else
      let f : frame := { data := r.data % 65536 }
      let d := reading2angle inst f
      if d.1 ≠ EMS22A_OK then
        poll_chain env i inst k (j + 1) (calls ++ [c]) readings (failed + 1)
      else
        poll_chain env i inst k (j + 1) (calls ++ [c]) (readings.set j (to_short d.2)) failed

/-- The function `ems22a_update_instance`.  When `CHECK_ID` fails, the `error`
label writes `inst->lock` through the still uninitialised `inst`. -/
def ems22a_update_instance (env : transport) (i : Int) (s : driver) :
    outcome (ems22a_rc_t × driver) :=
  if ¬ (i < EMS22A_MAX_INSTANCES) then outcome.undef
  else if ¬ (i > -1) then outcome.undef
  else
    match s.slot i.toNat with
    | inst_ptr.null => outcome.undef
    | inst_ptr.freed => outcome.undef
    | inst_ptr.valid inst =>
      if inst.lock ≠ 0 then outcome.spins
      else if ¬ (inst.n_daisy_chain > 0 ∧ inst.n_daisy_chain < EMS22A_MAX_DAISY_CHAIN) then
        let p := inst_ptr.valid { inst with lock := 0 }
        outcome.ret (EMS22A_FAILURE, { s with instances := s.instances.set i.toNat p })
      else if inst.readf = 0 then outcome.undef
      else
        let p := poll_chain env i inst inst.n_daisy_chain.toNat 0 s.calls inst.readings 0
        let q := inst_ptr.valid { inst with readings := p.2.1, lock := 0 }
        let s1 : driver := { s with calls := p.1, instances := s.instances.set i.toNat q }
        if p.2.2 > 0 then outcome.ret (EMS22A_WARNING, s1)
        else outcome.ret (EMS22A_OK, s1)

/-- The loop of `ems22a_update` (ems22a.c:181-185): `k` iterations from index
`i` on, `rc` being the value held so far. -/
def update_loop (env : transport) : Nat → Nat → ems22a_rc_t → driver →
    outcome (ems22a_rc_t × driver)
  | 0, _, rc, s => outcome.ret (rc, s)
  | k + 1, i, rc, s =>
    if s.slot i ≠ inst_ptr.null then
      match ems22a_update_instance env (i : Int) s with
      | outcome.ret r => update_loop env k (i + 1) r.1 r.2
      | outcome.spins => outcome.spins
      | outcome.undef => outcome.undef
    else update_loop env k (i + 1) rc s

/-- The function `ems22a_update`. -/
def ems22a_update (env : transport) (s : driver) : outcome (ems22a_rc_t × driver) :=
  update_loop env EMS22A_MAX_INSTANCES.toNat 0 EMS22A_OK s

/-- The function `ems22a_read_angle`: the return code and what is written to
`*angle` (`none` when nothing is written).  The module state is only read. -/
def ems22a_read_angle (id : Int) (daisy_chain_id : Int) (s : driver) :
    outcome (ems22a_rc_t × Option Int) :=
  if ¬ (id < EMS22A_MAX_INSTANCES) then outcome.ret (EMS22A_FAILURE, none)
  else if ¬ (id > -1) then outcome.ret (EMS22A_FAILURE, none)
  else
    match s.slot id.toNat with
    | inst_ptr.null => outcome.ret (EMS22A_FAILURE, none)
    | inst_ptr.freed => outcome.undef
    | inst_ptr.valid inst =>
      if ¬ (daisy_chain_id < EMS22A_MAX_DAISY_CHAIN) then outcome.ret (EMS22A_FAILURE, none)
      else if ¬ (daisy_chain_id > -1) then outcome.ret (EMS22A_FAILURE, none)
      else if ¬ (daisy_chain_id < inst.n_daisy_chain) then outcome.ret (EMS22A_FAILURE, none)
      else
        match inst.readings[daisy_chain_id.toNat]? with
        | some a => outcome.ret (EMS22A_OK, some a)
        | none => outcome.undef

/-- The function `ems22a_instance_end`.  The instance is passed to `free`;
no statement assigns `instances[ems22a_instance_id]`, so the entry keeps
pointing at the freed instance. -/
def ems22a_instance_end (ems22a_instance_id : Int) (s : driver) :
    outcome (ems22a_rc_t × driver) :=
  if ¬ (ems22a_instance_id < EMS22A_MAX_INSTANCES) then outcome.ret (EMS22A_FAILURE, s)
  else if ¬ (ems22a_instance_id > -1) then outcome.ret (EMS22A_FAILURE, s)
  else
    match s.slot ems22a_instance_id.toNat with
    | inst_ptr.null => outcome.ret (EMS22A_FAILURE, s)
    | inst_ptr.freed => outcome.undef
    | inst_ptr.valid inst =>
      let d : cb_call := { kind := cb_kind.deinit, fn := inst.deinitf, id := ems22a_instance_id }
      let s1 : driver := if inst.deinitf = 0 then s else { s with calls := s.calls ++ [d] }
      outcome.ret (EMS22A_OK,
        { s1 with instances := s1.instances.set ems22a_instance_id.toNat inst_ptr.freed })

/-! ## Vocabulary for statements about an update cycle -/

/-- Reply to the read made for chain position `j` by a cycle that begins
after the calls `calls`: the reads for the `j` positions before it have been
made by then. -/
def read_reply (env : transport) (inst : instance_t) (i : Int) (calls : List cb_call)
    (j : Nat) : cb_reply :=
  env (calls ++ List.replicate j (read_call inst i)) (read_call inst i)

/-- Decoding of the frame a read has left in the local `f`. -/
def decode_reply (inst : instance_t) (r : cb_reply) : ems22a_rc_t × Int :=
  reading2angle inst { data := r.data % 65536 }

/-- A chain position succeeds when its read returned 0 and its frame decoded
with `EMS22A_OK`. -/
abbrev position_ok (inst : instance_t) (r : cb_reply) : Prop :=
  r.rc = 0 ∧ (decode_reply inst r).1 = EMS22A_OK

/-! ## Sample data used in the closed statements -/

/-- An instance with parity checks enabled (`disable_parity_checks = 0`),
chain length 1 and callbacks at the addresses 10, 11 and 12. -/
def sample_inst : instance_t :=
  { initf := 10, readf := 11, deinitf := 12, readings := [0], zeroes := [0],
    n_daisy_chain := 1, lock := 0, disable_parity_checks := 0, comment := none }

/-- The same instance with parity checks disabled. -/
def sample_inst_noparity : instance_t := { sample_inst with disable_parity_checks := 1 }

/-- A transport whose first read for id 0 fails with code 1; every other call
returns 0, and a read leaves the frame `0xFFC0` (reading 1023, no flag set). -/
def sample_env : transport := fun calls c =>
  if c.kind = cb_kind.read ∧ c.id = 0 ∧ (calls.filter (fun x => x = c)).length = 0 then
    { rc := 1, data := 0 }
  else { rc := 0, data := 0xFFC0 }

/-- An instance of chain length 2 holding the readings 7 and 8. -/
def sample_inst2 : instance_t :=
  { initf := 10, readf := 11, deinitf := 12, readings := [7, 8], zeroes := [0, 0],
    n_daisy_chain := 2, lock := 0, disable_parity_checks := 0, comment := none }

/-- A state whose entry 0 points to `sample_inst2`. -/
def sample_state : driver :=
  { instances := [inst_ptr.valid sample_inst2, inst_ptr.null, inst_ptr.null],
    n_instances := 1, calls := [] }

/-- Sequencing of two calls: the second runs on what the first returns. -/
def outcome.bind {α β : Type} (o : outcome α) (f : α → outcome β) : outcome β :=
  match o with
  | outcome.ret a => f a
  | outcome.spins => outcome.spins
  | outcome.undef => outcome.undef

/-- Every entry of `instances` is `NULL` or points to an allocated instance
that is unlocked and has a read callback. -/
def driver.idle (s : driver) : Prop :=
  ∀ m, s.slot m = inst_ptr.null ∨
    ∃ inst, s.slot m = inst_ptr.valid inst ∧ inst.lock = 0 ∧ inst.readf ≠ 0

/-- The state after two successful starts with chain length 1 on the initial
state, under `sample_env`. -/
def sample_two : driver :=
  (ems22a_instance_start sample_env 10 11 12 1 none 0
    (ems22a_instance_start sample_env 10 11 12 1 none 0 driver.initial).2).2

/-- The state `sample_two` after the update cycle of entry 0, whose only read
fails: one more call, no reading changed. -/
def sample_two_after0 : driver :=
  { sample_two with calls := sample_two.calls ++ [read_call sample_inst 0] }

/-- The state `sample_two_after0` after the update cycle of entry 1, whose
read succeeds with the frame `0xFFC0`: the reading of entry 1 is 359. -/
def sample_two_after1 : driver :=
  { instances := [inst_ptr.valid sample_inst,
      inst_ptr.valid { sample_inst with readings := [359] }, inst_ptr.null],
    n_instances := 2,
    calls := sample_two_after0.calls ++ [read_call sample_inst 1] }

/-- The instance a successful `ems22a_instance_start` leaves in the table:
the given callbacks and settings, zeroed buffers of `n_daisy_chain` elements
and `lock = 0`. -/
def started_instance (initf readf deinitf : Nat) (n_daisy_chain : Int)
    (comment_string : Option String) (no_parity_control : Int) : instance_t :=
  { initf := initf, readf := readf, deinitf := deinitf,
    readings := List.replicate n_daisy_chain.toNat 0,
    zeroes := List.replicate n_daisy_chain.toNat 0,
    n_daisy_chain := n_daisy_chain, lock := 0,
    disable_parity_checks := no_parity_control,
    comment := comment_string }

/-- The call `inst->initf(free_inst)`. -/
def init_call (initf : Nat) (id : Int) : cb_call :=
  { kind := cb_kind.init, fn := initf, id := id }

/-- The call `inst->deinitf(id)`. -/
def deinit_call (deinitf : Nat) (id : Int) : cb_call :=
  { kind := cb_kind.deinit, fn := deinitf, id := id }

/-- The state after one successful start with chain length 1 on the initial
state, under `sample_env`: entry 0 is live. -/
def sample_started : driver :=
  (ems22a_instance_start sample_env 10 11 12 1 none 0 driver.initial).2

/-- The state `sample_started` after `ems22a_instance_end(0)`: the deinit
callback has been called and entry 0 points to the freed instance. -/
def sample_ended : driver :=
  { instances := [inst_ptr.freed, inst_ptr.null, inst_ptr.null], n_instances := 1,
    calls := [init_call 10 0, deinit_call 12 0] }

/-- A transport whose init callback returns the error code 7; every other
call returns 0. -/
def sample_env_init_error : transport := fun _ c =>
  if c.kind = cb_kind.init then { rc := 7, data := 0 } else { rc := 0, data := 0 }

/-! ## Runs of the external interface -/

/-- One call of the external interface, with its arguments. -/
inductive api_call
  | instance_start (initf readf deinitf : Nat) (n_daisy_chain : Int)
      (comment_string : Option String) (no_parity_control : Int)
  | instance_end (ems22a_instance_id : Int)
  | update
  | read_angle (id : Int) (daisy_chain_id : Int)
  deriving DecidableEq, Repr

/-- The state a call of the external interface leaves when it returns. -/
def api_step (env : transport) (c : api_call) (s : driver) : outcome driver :=
  match c with
  | api_call.instance_start initf readf deinitf n cs p =>
    outcome.ret (ems22a_instance_start env initf readf deinitf n cs p s).2
  | api_call.instance_end id => (ems22a_instance_end id s).bind (fun r => outcome.ret r.2)
  | api_call.update => (ems22a_update env s).bind (fun r => outcome.ret r.2)
  | api_call.read_angle id j => (ems22a_read_angle id j s).bind (fun _ => outcome.ret s)

/-- A sequence of calls of the external interface, one after the other.  The
run has a final state when every call returns; a call that never returns or
runs into undefined behaviour ends the run without one. -/
def api_run (env : transport) : List api_call → driver → outcome driver
  | [], s => outcome.ret s
  | c :: cs, s => (api_step env c s).bind (api_run env cs)

/-- The properties every allocated instance in the table keeps: chain length
in `[1, EMS22A_MAX_DAISY_CHAIN)`, both buffers of that many elements, the lock
released, a read callback, and every reading in `[0, 359]`. -/
def instance_t.wf (inst : instance_t) : Prop :=
  (inst.n_daisy_chain > 0 ∧ inst.n_daisy_chain < EMS22A_MAX_DAISY_CHAIN) ∧
  inst.readings.length = inst.n_daisy_chain.toNat ∧
  inst.zeroes.length = inst.n_daisy_chain.toNat ∧
  inst.lock = 0 ∧
  inst.readf ≠ 0 ∧
  ∀ x ∈ inst.readings, 0 ≤ x ∧ x ≤ 359

/-- Every entry of the table that points to an allocated instance points to a
well-formed one. -/
def driver.wf (s : driver) : Prop :=
  ∀ m inst, s.slot m = inst_ptr.valid inst → inst.wf

/-- A run under `sample_env`: two starts, an update, a read and the end of
handle 1. -/
def sample_run : List api_call :=
  [api_call.instance_start 10 11 12 2 none 0, api_call.instance_start 20 21 22 1 none 0,
    api_call.update, api_call.read_angle 0 1, api_call.instance_end 1]

/-- The state `sample_run` leaves: entry 0 live with the readings 0 (its first
read failed) and 359, entry 1 pointing to the freed instance. -/
def sample_run_final : driver :=
  { instances :=
      [inst_ptr.valid
        { initf := 10, readf := 11, deinitf := 12, readings := [0, 359], zeroes := [0, 0],
          n_daisy_chain := 2, lock := 0, disable_parity_checks := 0, comment := none },
       inst_ptr.freed, inst_ptr.null],
    n_instances := 2,
    calls := [init_call 10 0, init_call 20 1,
      { kind := cb_kind.read, fn := 11, id := 0 }, { kind := cb_kind.read, fn := 11, id := 0 },
      { kind := cb_kind.read, fn := 21, id := 1 }, deinit_call 22 1] }

theorem int_wrap_of_range (x : Int) (h0 : 0 ≤ x) (h1 : x < 2147483648) : int_wrap x = x := by
  unfold int_wrap
  omega

theorem to_short_of_range (x : Int) (h0 : -32768 ≤ x) (h1 : x < 32768) : to_short x = x := by
  unfold to_short
  omega

theorem reading_lt (f : frame) : f.reading < 1024 := by
  unfold frame.reading
  omega

/-- The angle computed from a reading is the floor of `360 * r / 1024`. -/
theorem angle_expr (r : Nat) (hr : r < 1024) :
    Int.tdiv (int_wrap (360 * (r : Int))) 1024 = ((360 * r / 1024 : Nat) : Int) := by
  rw [int_wrap_of_range _ (by omega) (by omega)]
  rw [Int.tdiv_eq_ediv (by omega) (by omega)]
  push_cast
  rfl

/-- With both fault flags clear the frame decodes, whatever its parity and
whatever the parity setting of the instance. -/
theorem reading2angle_no_fault (inst : instance_t) (f : frame)
    (hc : f.cordic_oflow = 0) (hl : f.linearity_alarm = 0) :
    reading2angle inst f = (EMS22A_OK, ((360 * f.reading / 1024 : Nat) : Int)) := by
  unfold reading2angle check_parity
  simp [hc, hl, angle_expr f.reading (reading_lt f)]

/-- A frame that decodes has both fault flags clear. -/
theorem reading2angle_ok_flags (inst : instance_t) (f : frame)
    (h : (reading2angle inst f).1 = EMS22A_OK) :
    f.cordic_oflow = 0 ∧ f.linearity_alarm = 0 := by
  unfold reading2angle check_parity at h
  by_cases hf : f.cordic_oflow ≠ 0 ∨ f.linearity_alarm ≠ 0
  · simp [hf] at h
  · push_neg at hf
    exact hf

/-- The angle of a frame that decodes lies in `[0, 359]`. -/
theorem reading2angle_ok_range (inst : instance_t) (f : frame)
    (h : (reading2angle inst f).1 = EMS22A_OK) :
    0 ≤ (reading2angle inst f).2 ∧ (reading2angle inst f).2 ≤ 359 := by
  obtain ⟨hc, hl⟩ := reading2angle_ok_flags inst f h
  rw [reading2angle_no_fault inst f hc hl]
  have hr := reading_lt f
  have h359 : 360 * f.reading / 1024 ≤ 359 := by omega
  constructor
  · show (0 : Int) ≤ ((360 * f.reading / 1024 : Nat) : Int)
    exact Int.natCast_nonneg _
  · show ((360 * f.reading / 1024 : Nat) : Int) ≤ 359
    exact_mod_cast h359

/-- C1: for every frame whose `cordic_oflow` and `linearity_alarm` flags are
both clear, with parity checks disabled or with an even number of set bits in
the frame, `reading2angle` returns `EMS22A_OK` and writes the angle
`floor(360 * r / 1024)` for the 10-bit reading `r`; the angle is in `[0, 359]`
and `360 * r` is computed without overflow of `int`. -/
theorem C1_reading2angle_decodes (inst : instance_t) (f : frame)
    (hc : f.cordic_oflow = 0) (hl : f.linearity_alarm = 0)
    (_hp : inst.disable_parity_checks ≠ 0 ∨ parity_counter f % 2 = 0) :
    reading2angle inst f = (EMS22A_OK, ((360 * f.reading / 1024 : Nat) : Int)) ∧
    f.reading < 1024 ∧
    360 * f.reading / 1024 ≤ 359 ∧
    int_wrap (360 * (f.reading : Int)) = 360 * (f.reading : Int) ∧
    360 * (f.reading : Int) < 2147483648 := by
  have hr := reading_lt f
  refine ⟨reading2angle_no_fault inst f hc hl, hr, by omega, ?_, by omega⟩
  exact int_wrap_of_range _ (by omega) (by omega)

/-- C1, at the all-zero frame with parity checks enabled: it decodes to angle 0. -/
theorem C1_reading2angle_decodes_witness :
    (sample_inst.disable_parity_checks = 0 ∧ parity_counter { data := 0 } % 2 = 0) ∧
    reading2angle sample_inst { data := 0 } = (EMS22A_OK, 0) :=
  ⟨by decide,
   (C1_reading2angle_decodes sample_inst { data := 0 } (by decide) (by decide)
      (Or.inr (by decide))).1⟩

/-- C2: for every frame in which `cordic_oflow` or `linearity_alarm` is set,
`reading2angle` returns `EMS22A_FAILURE`, a code other than `EMS22A_OK`,
whatever the reading, the other flags and the parity setting. -/
theorem C2_reading2angle_fault_flags (inst : instance_t) (f : frame)
    (h : f.cordic_oflow ≠ 0 ∨ f.linearity_alarm ≠ 0) :
    (reading2angle inst f).1 = EMS22A_FAILURE ∧ (reading2angle inst f).1 ≠ EMS22A_OK := by
  have h1 : (reading2angle inst f).1 = EMS22A_FAILURE := by
    unfold reading2angle check_parity
    simp [h]
  rw [h1]
  exact ⟨rfl, by decide⟩

/-- C2, at the frame `0xFFD0` (reading 1023, `cordic_oflow` set). -/
theorem C2_reading2angle_fault_flags_witness :
    (frame.cordic_oflow { data := 0xFFD0 } ≠ 0) ∧
    (reading2angle sample_inst { data := 0xFFD0 }).1 = EMS22A_FAILURE :=
  ⟨by decide, (C2_reading2angle_fault_flags sample_inst { data := 0xFFD0 }
      (Or.inl (by decide))).1⟩

/-- C3: the frame `0x0040` (reading 1, every flag and the parity bit clear) has
one set bit, an odd number, and the comparison at the end of `check_parity`
would reject it; yet with parity checks enabled `check_parity` returns
`EMS22A_OK` and `reading2angle` decodes the frame to angle 0, exactly as it
does with parity checks disabled. -/
theorem C3_parity_never_checked :
    sample_inst.disable_parity_checks = 0 ∧
    parity_counter { data := 0x0040 } = 1 ∧
    frame.parity { data := 0x0040 } = 0 ∧
    frame.cordic_oflow { data := 0x0040 } = 0 ∧
    frame.linearity_alarm { data := 0x0040 } = 0 ∧
    check_parity_unreached { data := 0x0040 } = EMS22A_WRONG_PARITY ∧
    check_parity { data := 0x0040 } = EMS22A_OK ∧
    reading2angle sample_inst { data := 0x0040 } = (EMS22A_OK, 0) ∧
    reading2angle sample_inst_noparity { data := 0x0040 } = (EMS22A_OK, 0) := by
  decide

/-! ## Properties of the update cycle -/

theorem read_reply_succ (env : transport) (i : Int) (inst : instance_t) (calls : List cb_call)
    (m : Nat) :
    read_reply env inst i (calls ++ [read_call inst i]) m = read_reply env inst i calls (m + 1) := by
  simp [read_reply, List.replicate_succ]

theorem read_reply_zero (env : transport) (i : Int) (inst : instance_t) (calls : List cb_call) :
    read_reply env inst i calls 0 = env calls (read_call inst i) := by
  simp [read_reply]

/-- One iteration of the chain loop, by whether the position succeeds. -/
theorem poll_chain_succ (env : transport) (i : Int) (inst : instance_t) (k j : Nat)
    (calls : List cb_call) (rd : List Int) (fl : Nat) :
    poll_chain env i inst (k + 1) j calls rd fl =
      if position_ok inst (read_reply env inst i calls 0) then
        poll_chain env i inst k (j + 1) (calls ++ [read_call inst i])
          (rd.set j (to_short (decode_reply inst (read_reply env inst i calls 0)).2)) fl
      else
        poll_chain env i inst k (j + 1) (calls ++ [read_call inst i]) rd (fl + 1) := by
  rw [read_reply_zero]
  by_cases h1 : (env calls (read_call inst i)).rc = 0
  · by_cases h2 : (reading2angle inst
        { data := (env calls (read_call inst i)).data % 65536 }).1 = EMS22A_OK
    · simp [poll_chain, decode_reply, position_ok, h1, h2]
    · simp [poll_chain, decode_reply, position_ok, h1, h2]
  · simp [poll_chain, decode_reply, position_ok, h1]

theorem poll_chain_readings (env : transport) (i : Int) (inst : instance_t) (k : Nat) :
    ∀ (j : Nat) (calls : List cb_call) (rd : List Int) (fl : Nat) (m : Nat), m < rd.length →
    (poll_chain env i inst k j calls rd fl).2.1[m]? =
      if j ≤ m ∧ m < j + k ∧ position_ok inst (read_reply env inst i calls (m - j)) then
        some (to_short (decode_reply inst (read_reply env inst i calls (m - j))).2)
      else rd[m]? := by
  induction k with
  | zero =>
    intro j calls rd fl m _
    have hfalse : ¬ (j ≤ m ∧ m < j + 0 ∧ position_ok inst (read_reply env inst i calls (m - j))) := by
      rintro ⟨a, b, _⟩
      omega
    rw [if_neg hfalse]
    simp [poll_chain]
  | succ k ih =>
    intro j calls rd fl m hm
    have hshift : j + 1 ≤ m →
        read_reply env inst i (calls ++ [read_call inst i]) (m - (j + 1)) =
          read_reply env inst i calls (m - j) := by
      intro hjm
      rw [read_reply_succ]
      congr 1
      omega
    have hcond : j + 1 ≤ m →
        ((j + 1 ≤ m ∧ m < j + 1 + k ∧
            position_ok inst (read_reply env inst i calls (m - j))) ↔
          (j ≤ m ∧ m < j + (k + 1) ∧
            position_ok inst (read_reply env inst i calls (m - j)))) := by
      intro _
      constructor <;> rintro ⟨a, b, c⟩ <;> exact ⟨by omega, by omega, c⟩
    have hlow : ∀ P : Prop, m < j + 1 → ¬ (j + 1 ≤ m ∧ m < j + 1 + k ∧ P) := by
      rintro P h ⟨a, _, _⟩
      omega
    have hjj : m = j → read_reply env inst i calls (m - j) = read_reply env inst i calls 0 := by
      intro h
      rw [h, Nat.sub_self]
    rw [poll_chain_succ]
    by_cases hok : position_ok inst (read_reply env inst i calls 0)
    · rw [if_pos hok, ih _ _ _ _ m (by rw [List.length_set]; exact hm)]
      by_cases hjm : j + 1 ≤ m
      · rw [hshift hjm, if_congr (hcond hjm) rfl rfl, List.getElem?_set, if_neg (show ¬ j = m by omega)]
      · rw [if_neg (hlow _ (by omega))]
        by_cases hmj : m = j
        · rw [if_pos ⟨by omega, by omega, by rw [hjj hmj]; exact hok⟩, hjj hmj, hmj,
            List.getElem?_set, if_pos rfl, if_pos (show j < rd.length by omega)]
        · rw [if_neg (show ¬ (j ≤ m ∧ m < j + (k + 1) ∧ position_ok inst (read_reply env inst i calls (m - j))) by rintro ⟨a, _, _⟩; omega), List.getElem?_set, if_neg (show ¬ j = m by omega)]
    · rw [if_neg hok, ih _ _ _ _ m hm]
      by_cases hjm : j + 1 ≤ m
      · rw [hshift hjm, if_congr (hcond hjm) rfl rfl]
      · rw [if_neg (hlow _ (by omega)), if_neg]
        rintro ⟨a, _, c⟩
        rw [hjj (by omega)] at c
        exact hok c

theorem poll_chain_calls (env : transport) (i : Int) (inst : instance_t) (k : Nat) :
    ∀ (j : Nat) (calls : List cb_call) (rd : List Int) (fl : Nat),
    (poll_chain env i inst k j calls rd fl).1 = calls ++ List.replicate k (read_call inst i) := by
  induction k with
  | zero => intro j calls rd fl; simp [poll_chain]
  | succ k ih =>
    intro j calls rd fl
    simp only [poll_chain]
    split_ifs <;> simp [ih, List.replicate_succ]

theorem poll_chain_length (env : transport) (i : Int) (inst : instance_t) (k : Nat) :
    ∀ (j : Nat) (calls : List cb_call) (rd : List Int) (fl : Nat),
    (poll_chain env i inst k j calls rd fl).2.1.length = rd.length := by
  induction k with
  | zero => intro j calls rd fl; simp [poll_chain]
  | succ k ih =>
    intro j calls rd fl
    simp only [poll_chain]
    split_ifs <;> simp [ih]

theorem poll_chain_failed (env : transport) (i : Int) (inst : instance_t) (k : Nat) :
    ∀ (j : Nat) (calls : List cb_call) (rd : List Int) (fl : Nat),
    (0 < (poll_chain env i inst k j calls rd fl).2.2 ↔
      (0 < fl ∨ ∃ m, m < k ∧ ¬ position_ok inst (read_reply env inst i calls m))) := by
  induction k with
  | zero => intro j calls rd fl; simp [poll_chain]
  | succ k ih =>
    intro j calls rd fl
    have key : (∃ m, m < k + 1 ∧ ¬ position_ok inst (read_reply env inst i calls m)) ↔
        (¬ position_ok inst (read_reply env inst i calls 0) ∨
          ∃ m, m < k ∧ ¬ position_ok inst (read_reply env inst i (calls ++ [read_call inst i]) m)) := by
      constructor
      · rintro ⟨m, hm, hbad⟩
        cases m with
        | zero => exact Or.inl hbad
        | succ m =>
          refine Or.inr ⟨m, by omega, ?_⟩
          rw [read_reply_succ]
          exact hbad
      · rintro (h | ⟨m, hm, hbad⟩)
        · exact ⟨0, by omega, h⟩
        · refine ⟨m + 1, by omega, ?_⟩
          rw [read_reply_succ] at hbad
          exact hbad
    rw [key]
    have r0 := read_reply_zero env i inst calls
    simp only [poll_chain]
    split_ifs with h1 h2
    · rw [ih]
      have hbad : ¬ position_ok inst (read_reply env inst i calls 0) := by
        rw [r0]; intro hh; exact h1 hh.1
      exact ⟨fun _ => Or.inr (Or.inl hbad), fun _ => Or.inl (Nat.succ_pos _)⟩
    · rw [ih]
      have hbad : ¬ position_ok inst (read_reply env inst i calls 0) := by
        rw [r0]; intro hh; exact h2 hh.2
      exact ⟨fun _ => Or.inr (Or.inl hbad), fun _ => Or.inl (Nat.succ_pos _)⟩
    · rw [ih]
      have hok : position_ok inst (read_reply env inst i calls 0) := by
        rw [r0]
        push_neg at h1 h2
        exact ⟨h1, h2⟩
      constructor
      · rintro (h | h)
        · exact Or.inl h
        · exact Or.inr (Or.inr h)
      · rintro (h | h | h)
        · exact Or.inl h
        · exact absurd hok h
        · exact Or.inr h

theorem slot_lt_of_ne_null (s : driver) (a : Nat) (h : s.slot a ≠ inst_ptr.null) :
    a < s.instances.length := by
  by_contra hlt
  apply h
  unfold driver.slot
  rw [List.getD_eq_getElem?_getD, List.getElem?_eq_none (by omega)]
  rfl

theorem getD_set_same (l : List inst_ptr) (a : Nat) (p : inst_ptr) (h : a < l.length) :
    (l.set a p).getD a inst_ptr.null = p := by
  rw [List.getD_eq_getElem?_getD, List.getElem?_set, if_pos rfl, if_pos h]
  rfl

theorem getD_set_other (l : List inst_ptr) (a b : Nat) (p : inst_ptr) (h : a ≠ b) :
    (l.set a p).getD b inst_ptr.null = l.getD b inst_ptr.null := by
  rw [List.getD_eq_getElem?_getD, List.getElem?_set, if_neg h, List.getD_eq_getElem?_getD]

theorem update_instance_eq (env : transport) (i : Int) (s : driver) (inst : instance_t)
    (hi0 : i > -1) (hi1 : i < EMS22A_MAX_INSTANCES)
    (hslot : s.slot i.toNat = inst_ptr.valid inst)
    (hlock : inst.lock = 0)
    (hn : inst.n_daisy_chain > 0 ∧ inst.n_daisy_chain < EMS22A_MAX_DAISY_CHAIN)
    (hrf : inst.readf ≠ 0) :
    ems22a_update_instance env i s =
      outcome.ret
        (if (poll_chain env i inst inst.n_daisy_chain.toNat 0 s.calls inst.readings 0).2.2 > 0
          then EMS22A_WARNING else EMS22A_OK,
         { s with
           calls := (poll_chain env i inst inst.n_daisy_chain.toNat 0 s.calls inst.readings 0).1,
           instances := s.instances.set i.toNat (inst_ptr.valid
             { inst with
               readings :=
                 (poll_chain env i inst inst.n_daisy_chain.toNat 0 s.calls inst.readings 0).2.1,
               lock := 0 }) }) := by
  unfold ems22a_update_instance
  rw [if_neg (not_not.mpr hi1), if_neg (not_not.mpr hi0), hslot]
  simp only
  rw [if_neg (not_not.mpr hlock), if_neg (not_not.mpr hn), if_neg hrf]
  split_ifs <;> rfl

/-- C4: on a live entry `i` whose instance is unlocked and has a chain length
`n` in `[1, EMS22A_MAX_DAISY_CHAIN)`, one update cycle returns; it calls the read
callback exactly `n` times and nothing else, the `j`-th call serving chain
position `j`; `readings[j]` becomes the decoded angle when read `j` returned 0
and its frame decoded, and keeps its value otherwise; the cycle returns
`EMS22A_OK` when every position succeeded and `EMS22A_WARNING` when one failed. -/
theorem C4_update_cycle (env : transport) (i : Int) (s : driver) (inst : instance_t)
    (hi0 : i > -1) (hi1 : i < EMS22A_MAX_INSTANCES)
    (hslot : s.slot i.toNat = inst_ptr.valid inst)
    (hlock : inst.lock = 0)
    (hn : inst.n_daisy_chain > 0 ∧ inst.n_daisy_chain < EMS22A_MAX_DAISY_CHAIN)
    (hrf : inst.readf ≠ 0)
    (hbuf : inst.readings.length = inst.n_daisy_chain.toNat) :
    ∃ rc s1 inst1,
      ems22a_update_instance env i s = outcome.ret (rc, s1) ∧
      s1.calls = s.calls ++ List.replicate inst.n_daisy_chain.toNat (read_call inst i) ∧
      s1.slot i.toNat = inst_ptr.valid inst1 ∧
      (∀ j, j < inst.n_daisy_chain.toNat →
        inst1.readings[j]? =
          if position_ok inst (read_reply env inst i s.calls j) then
            some (decode_reply inst (read_reply env inst i s.calls j)).2
          else inst.readings[j]?) ∧
      ((∀ j, j < inst.n_daisy_chain.toNat →
          position_ok inst (read_reply env inst i s.calls j)) → rc = EMS22A_OK) ∧
      ((∃ j, j < inst.n_daisy_chain.toNat ∧
          ¬ position_ok inst (read_reply env inst i s.calls j)) → rc = EMS22A_WARNING) := by
  rw [update_instance_eq env i s inst hi0 hi1 hslot hlock hn hrf]
  have hlt : i.toNat < s.instances.length := by
    apply slot_lt_of_ne_null
    rw [hslot]
    exact fun h => inst_ptr.noConfusion h
  have hfail := poll_chain_failed env i inst inst.n_daisy_chain.toNat 0 s.calls inst.readings 0
  refine ⟨_, _, { inst with
      readings := (poll_chain env i inst inst.n_daisy_chain.toNat 0 s.calls inst.readings 0).2.1,
      lock := 0 }, rfl, ?_, ?_, ?_, ?_, ?_⟩
  · exact poll_chain_calls env i inst _ 0 s.calls inst.readings 0
  · exact getD_set_same s.instances i.toNat _ hlt
  · intro j hj
    show (poll_chain env i inst inst.n_daisy_chain.toNat 0 s.calls inst.readings 0).2.1[j]? = _
    rw [poll_chain_readings env i inst _ 0 s.calls inst.readings 0 j (by omega), Nat.sub_zero]
    by_cases hok : position_ok inst (read_reply env inst i s.calls j)
    · rw [if_pos ⟨by omega, by omega, hok⟩, if_pos hok]
      have hr := reading2angle_ok_range inst _ hok.2
      rw [to_short_of_range _ (by unfold decode_reply; omega) (by unfold decode_reply; omega)]
    · rw [if_neg (fun h => hok h.2.2), if_neg hok]
  · intro hall
    rw [if_neg]
    intro hpos
    rcases hfail.mp hpos with h | ⟨m, hm, hbad⟩
    · omega
    · exact hbad (hall m hm)
  · intro hex
    rw [if_pos]
    exact hfail.mpr (Or.inr hex)

/-- C4, on `sample_state` under `sample_env`: the first read fails, the second
succeeds. -/
theorem C4_update_cycle_witness :
    (sample_state.slot 0 = inst_ptr.valid sample_inst2 ∧ sample_inst2.lock = 0 ∧
      sample_inst2.n_daisy_chain = 2 ∧ sample_inst2.readings = [7, 8]) ∧
    ∃ rc s1 inst1,
      ems22a_update_instance sample_env 0 sample_state = outcome.ret (rc, s1) ∧
      s1.calls = sample_state.calls ++
        List.replicate sample_inst2.n_daisy_chain.toNat (read_call sample_inst2 0) ∧
      s1.slot 0 = inst_ptr.valid inst1 ∧
      (∀ j, j < sample_inst2.n_daisy_chain.toNat →
        inst1.readings[j]? =
          if position_ok sample_inst2 (read_reply sample_env sample_inst2 0 sample_state.calls j)
          then some (decode_reply sample_inst2
            (read_reply sample_env sample_inst2 0 sample_state.calls j)).2
          else sample_inst2.readings[j]?) ∧
      ((∀ j, j < sample_inst2.n_daisy_chain.toNat →
          position_ok sample_inst2 (read_reply sample_env sample_inst2 0 sample_state.calls j)) →
        rc = EMS22A_OK) ∧
      ((∃ j, j < sample_inst2.n_daisy_chain.toNat ∧
          ¬ position_ok sample_inst2 (read_reply sample_env sample_inst2 0 sample_state.calls j)) →
        rc = EMS22A_WARNING) :=
  ⟨by decide,
   C4_update_cycle sample_env 0 sample_state sample_inst2 (by decide) (by decide) (by decide)
     (by decide) (by decide) (by decide) (by decide)⟩

/-! ## Properties of `ems22a_update` -/

/-- What an update cycle on a live, unlocked entry leaves: it returns, only
`calls` and entry `m` change, and entry `m` still points to an unlocked
instance with the same read callback. -/
theorem update_instance_idle (env : transport) (s : driver) (m : Nat) (hm : m < 3)
    (hidle : s.idle) (hlive : s.slot m ≠ inst_ptr.null) :
    ∃ rc s1, ems22a_update_instance env (m : Int) s = outcome.ret (rc, s1) ∧ s1.idle ∧
      (∀ a, s1.slot a = inst_ptr.null ↔ s.slot a = inst_ptr.null) := by
  rcases hidle m with h | ⟨inst, hslot, hlock, hrf⟩
  · exact absurd h hlive
  have hlt := slot_lt_of_ne_null s m hlive
  have hshape : ∀ (cs : List cb_call) (inst1 : instance_t), inst1.lock = 0 →
      inst1.readf ≠ 0 →
      driver.idle { s with calls := cs, instances := s.instances.set m (inst_ptr.valid inst1) } ∧
      (∀ a, driver.slot
          { s with calls := cs, instances := s.instances.set m (inst_ptr.valid inst1) } a =
            inst_ptr.null ↔ s.slot a = inst_ptr.null) := by
    intro cs inst1 h1 h2
    have hslots : ∀ a, driver.slot
        { s with calls := cs, instances := s.instances.set m (inst_ptr.valid inst1) } a =
          if m = a then inst_ptr.valid inst1 else s.slot a := by
      intro a
      by_cases hma : m = a
      · rw [if_pos hma, ← hma]
        exact getD_set_same s.instances m _ hlt
      · rw [if_neg hma]
        exact getD_set_other s.instances m a _ hma
    constructor
    · intro a
      rw [hslots a]
      by_cases hma : m = a
      · rw [if_pos hma]
        exact Or.inr ⟨inst1, rfl, h1, h2⟩
      · rw [if_neg hma]
        exact hidle a
    · intro a
      rw [hslots a]
      by_cases hma : m = a
      · rw [if_pos hma, ← hma, hslot]
        constructor <;> intro h <;> exact inst_ptr.noConfusion h
      · rw [if_neg hma]
  have hm0 : ((m : Int)) > -1 := by omega
  have hm1 : ((m : Int)) < EMS22A_MAX_INSTANCES := by unfold EMS22A_MAX_INSTANCES; omega
  have hslot1 : s.slot (m : Int).toNat = inst_ptr.valid inst := by
    rw [Int.toNat_ofNat]; exact hslot
  by_cases hn : inst.n_daisy_chain > 0 ∧ inst.n_daisy_chain < EMS22A_MAX_DAISY_CHAIN
  · rw [update_instance_eq env m s inst hm0 hm1 hslot1 hlock hn hrf]
    refine ⟨_, _, rfl, ?_⟩
    rw [Int.toNat_ofNat]
    exact hshape _ _ rfl hrf
  · refine ⟨EMS22A_FAILURE,
      { s with instances := s.instances.set m (inst_ptr.valid { inst with lock := 0 }) }, ?_, ?_⟩
    · unfold ems22a_update_instance
      rw [if_neg (not_not.mpr hm1), if_neg (not_not.mpr hm0), hslot1]
      simp only
      rw [if_neg (not_not.mpr hlock), if_pos hn, Int.toNat_ofNat]
    · exact hshape s.calls { inst with lock := 0 } rfl hrf

theorem update_loop_succ_null (env : transport) (k i : Nat) (rc : ems22a_rc_t) (s : driver)
    (h : s.slot i = inst_ptr.null) :
    update_loop env (k + 1) i rc s = update_loop env k (i + 1) rc s := by
  simp [update_loop, h]

theorem update_loop_succ_live (env : transport) (k i : Nat) (rc : ems22a_rc_t) (s : driver)
    (h : s.slot i ≠ inst_ptr.null) :
    update_loop env (k + 1) i rc s =
      (ems22a_update_instance env (i : Int) s).bind (fun r => update_loop env k (i + 1) r.1 r.2) := by
  simp only [update_loop, if_pos h]
  cases ems22a_update_instance env (i : Int) s <;> rfl

/-- Iterations over entries that are all `NULL` change nothing. -/
theorem update_loop_null (env : transport) (k : Nat) :
    ∀ (i : Nat) (rc : ems22a_rc_t) (s : driver),
      (∀ a, i ≤ a → a < i + k → s.slot a = inst_ptr.null) →
      update_loop env k i rc s = outcome.ret (rc, s) := by
  induction k with
  | zero => intro i rc s _; rfl
  | succ k ih =>
    intro i rc s h
    rw [update_loop_succ_null env k i rc s (h i (by omega) (by omega))]
    exact ih (i + 1) rc s (fun a h1 h2 => h a (by omega) (by omega))

/-- The loop over a range of entries is the loop over its first part followed
by the loop over the rest. -/
theorem update_loop_append (env : transport) (a b : Nat) :
    ∀ (i : Nat) (rc : ems22a_rc_t) (s : driver),
      update_loop env (a + b) i rc s =
        (update_loop env a i rc s).bind (fun r => update_loop env b (i + a) r.1 r.2) := by
  induction a with
  | zero =>
    intro i rc s
    simp [update_loop, outcome.bind]
  | succ a ih =>
    intro i rc s
    have e : a + 1 + b = (a + b) + 1 := by omega
    rw [e]
    by_cases h : s.slot i = inst_ptr.null
    · rw [update_loop_succ_null env _ i rc s h, update_loop_succ_null env _ i rc s h, ih]
      have e2 : i + 1 + a = i + (a + 1) := by omega
      rw [e2]
    · rw [update_loop_succ_live env _ i rc s h, update_loop_succ_live env _ i rc s h]
      cases ems22a_update_instance env (i : Int) s with
      | ret r =>
        have e2 : i + 1 + a = i + (a + 1) := by omega
        show update_loop env (a + b) (i + 1) r.1 r.2 =
          (update_loop env a (i + 1) r.1 r.2).bind
            (fun r => update_loop env b (i + (a + 1)) r.1 r.2)
        rw [ih, e2]
      | spins => rfl
      | undef => rfl

/-- On an idle state the loop returns, leaves an idle state, and keeps which
entries are `NULL`. -/
theorem update_loop_idle (env : transport) (k : Nat) :
    ∀ (i : Nat) (rc : ems22a_rc_t) (s : driver), i + k ≤ 3 → s.idle →
      ∃ rc1 s1, update_loop env k i rc s = outcome.ret (rc1, s1) ∧ s1.idle ∧
        (∀ a, s1.slot a = inst_ptr.null ↔ s.slot a = inst_ptr.null) := by
  induction k with
  | zero =>
    intro i rc s _ hidle
    exact ⟨rc, s, rfl, hidle, fun _ => Iff.rfl⟩
  | succ k ih =>
    intro i rc s hik hidle
    by_cases h : s.slot i = inst_ptr.null
    · rw [update_loop_succ_null env k i rc s h]
      exact ih (i + 1) rc s (by omega) hidle
    · rw [update_loop_succ_live env k i rc s h]
      obtain ⟨rc1, s1, e1, hidle1, hnull1⟩ := update_instance_idle env s i (by omega) hidle h
      rw [e1]
      simp only [outcome.bind]
      obtain ⟨rc2, s2, e2, hidle2, hnull2⟩ := ih (i + 1) rc1 s1 (by omega) hidle1
      exact ⟨rc2, s2, e2, hidle2, fun a => (hnull2 a).trans (hnull1 a)⟩

theorem max_instances_toNat : EMS22A_MAX_INSTANCES.toNat = 3 := rfl

/-- C5 (amended): on a state whose entries are `NULL` or unlocked instances,
`ems22a_update` returns, and what it returns is the result of the update
cycle of the live entry with the highest index, run on the state left by the
cycles of the entries before it; with no live entry it returns `EMS22A_OK`
and changes nothing. -/
theorem C5_update_returns_last_live (env : transport) (s : driver) (hidle : s.idle) :
    ∃ rc sf, ems22a_update env s = outcome.ret (rc, sf) ∧
      ((∀ m, m < EMS22A_MAX_INSTANCES.toNat → s.slot m = inst_ptr.null) →
        rc = EMS22A_OK ∧ sf = s) ∧
      (∀ i, i < EMS22A_MAX_INSTANCES.toNat → s.slot i ≠ inst_ptr.null →
        (∀ m, i < m → m < EMS22A_MAX_INSTANCES.toNat → s.slot m = inst_ptr.null) →
        ∃ rc0 sb, update_loop env i 0 EMS22A_OK s = outcome.ret (rc0, sb) ∧
          ems22a_update_instance env (i : Int) sb = outcome.ret (rc, sf)) := by
  rw [max_instances_toNat]
  obtain ⟨rc, sf, e, -, -⟩ := update_loop_idle env 3 0 EMS22A_OK s (by omega) hidle
  have eu : ems22a_update env s = update_loop env 3 0 EMS22A_OK s := rfl
  refine ⟨rc, sf, by rw [eu, e], ?_, ?_⟩
  · intro hnull
    rw [update_loop_null env 3 0 EMS22A_OK s (fun a _ h2 => hnull a (by omega))] at e
    injection e with e
    injection e with e1 e2
    exact ⟨e1.symm, e2.symm⟩
  · intro i hi hlive hlast
    obtain ⟨rc0, sb, eb, hidleb, hnullb⟩ := update_loop_idle env i 0 EMS22A_OK s (by omega) hidle
    have hliveb : sb.slot i ≠ inst_ptr.null := fun h => hlive ((hnullb i).mp h)
    obtain ⟨rc1, s1, e1, -, hnull1⟩ := update_instance_idle env sb i hi hidleb hliveb
    refine ⟨rc0, sb, eb, ?_⟩
    have hsplit : (3 : Nat) = i + ((2 - i) + 1) := by omega
    have hrest : update_loop env (2 - i) (i + 1) rc1 s1 = outcome.ret (rc1, s1) := by
      apply update_loop_null
      intro a h1 h2
      exact (hnull1 a).mpr ((hnullb a).mpr (hlast a (by omega) (by omega)))
    have e3 : update_loop env 3 0 EMS22A_OK s = outcome.ret (rc1, s1) := by
      rw [hsplit, update_loop_append, eb]
      show update_loop env ((2 - i) + 1) (0 + i) rc0 sb = _
      rw [Nat.zero_add, update_loop_succ_live env _ i rc0 sb hliveb, e1]
      exact hrest
    rw [e3] at e
    injection e with e
    injection e with h1 h2
    rw [e1, h1, h2]

theorem sample_two_idle : sample_two.idle := by
  intro m
  rcases m with _ | _ | _ | m
  · exact Or.inr ⟨sample_inst, by decide, by decide, by decide⟩
  · exact Or.inr ⟨sample_inst, by decide, by decide, by decide⟩
  · exact Or.inl (by decide)
  · exact Or.inl rfl

/-- C5 (amended), on `sample_two`, a state with two live entries. -/
theorem C5_update_returns_last_live_witness :
    sample_two.idle ∧
    ∃ rc sf, ems22a_update sample_env sample_two = outcome.ret (rc, sf) ∧
      ((∀ m, m < EMS22A_MAX_INSTANCES.toNat → sample_two.slot m = inst_ptr.null) →
        rc = EMS22A_OK ∧ sf = sample_two) ∧
      (∀ i, i < EMS22A_MAX_INSTANCES.toNat → sample_two.slot i ≠ inst_ptr.null →
        (∀ m, i < m → m < EMS22A_MAX_INSTANCES.toNat → sample_two.slot m = inst_ptr.null) →
        ∃ rc0 sb, update_loop sample_env i 0 EMS22A_OK sample_two = outcome.ret (rc0, sb) ∧
          ems22a_update_instance sample_env (i : Int) sb = outcome.ret (rc, sf)) :=
  ⟨sample_two_idle, C5_update_returns_last_live sample_env sample_two sample_two_idle⟩

/-- C5, refuted on `sample_two`: the cycle of entry 0 returns `EMS22A_WARNING`,
the cycle of entry 1 then returns `EMS22A_OK`, and `ems22a_update` returns
`EMS22A_OK`, the result of the later entry and not the more severe one. -/
theorem C5_update_most_severe_counterexample :
    ems22a_update_instance sample_env 0 sample_two =
      outcome.ret (EMS22A_WARNING, sample_two_after0) ∧
    ems22a_update_instance sample_env 1 sample_two_after0 =
      outcome.ret (EMS22A_OK, sample_two_after1) ∧
    ems22a_update sample_env sample_two = outcome.ret (EMS22A_OK, sample_two_after1) ∧
    EMS22A_OK.toInt < EMS22A_WARNING.toInt ∧ EMS22A_WARNING.toInt < EMS22A_FAILURE.toInt := by
  decide

/-- An update cycle neither reads nor writes `n_instances`. -/
theorem update_instance_count (env : transport) (i : Int) (s : driver) (v : Nat) :
    ems22a_update_instance env i { s with n_instances := v } =
      (ems22a_update_instance env i s).bind
        (fun r => outcome.ret (r.1, { r.2 with n_instances := v })) := by
  have hs : (driver.slot { s with n_instances := v } i.toNat) = s.slot i.toNat := rfl
  unfold ems22a_update_instance
  rw [hs]
  by_cases h1 : i < EMS22A_MAX_INSTANCES
  · by_cases h2 : i > -1
    · rw [if_neg (not_not.mpr h1), if_neg (not_not.mpr h2), if_neg (not_not.mpr h1),
        if_neg (not_not.mpr h2)]
      cases s.slot i.toNat with
      | null => rfl
      | freed => rfl
      | valid inst =>
        simp only
        split_ifs <;> rfl
    · rw [if_neg (not_not.mpr h1), if_pos h2, if_neg (not_not.mpr h1), if_pos h2]
      rfl
  · rw [if_pos h1, if_pos h1]
    rfl

/-- The loop of `ems22a_update` neither reads nor writes `n_instances`. -/
theorem update_loop_count (env : transport) (v : Nat) (k : Nat) :
    ∀ (i : Nat) (rc : ems22a_rc_t) (s : driver),
      update_loop env k i rc { s with n_instances := v } =
        (update_loop env k i rc s).bind
          (fun r => outcome.ret (r.1, { r.2 with n_instances := v })) := by
  induction k with
  | zero => intro i rc s; rfl
  | succ k ih =>
    intro i rc s
    have hs : (driver.slot { s with n_instances := v } i) = s.slot i := rfl
    by_cases h : s.slot i = inst_ptr.null
    · rw [update_loop_succ_null env k i rc _ (hs.trans h), update_loop_succ_null env k i rc s h]
      exact ih (i + 1) rc s
    · rw [update_loop_succ_live env k i rc _ (fun e => h (hs.symm.trans e)),
        update_loop_succ_live env k i rc s h, update_instance_count]
      cases ems22a_update_instance env (i : Int) s with
      | ret r => exact ih (i + 1) r.1 r.2
      | spins => rfl
      | undef => rfl

/-! ## Properties of `ems22a_instance_start` and `ems22a_instance_end` -/

/-- A start that passes every check and whose init callback returns 0. -/
theorem instance_start_ok (env : transport) (initf readf deinitf : Nat) (n : Int)
    (c : Option String) (p : Int) (s : driver) (j : Nat)
    (hargs : initf ≠ 0 ∧ readf ≠ 0 ∧ deinitf ≠ 0)
    (hn : n > 0 ∧ n < EMS22A_MAX_INSTANCES)
    (hfree : free_inst_scan s EMS22A_MAX_INSTANCES.toNat 0 = (j : Int))
    (hcount : (((s.n_instances + 1) % SIZE_MOD : Nat) : Int) ≤ EMS22A_MAX_INSTANCES)
    (hinit : (env s.calls (init_call initf j)).rc = 0) :
    ems22a_instance_start env initf readf deinitf n c p s =
      ((j : Int),
        { instances := s.instances.set j (inst_ptr.valid (started_instance initf readf deinitf n c p)),
          n_instances := (s.n_instances + 1) % SIZE_MOD,
          calls := s.calls ++ [init_call initf j] }) := by
  have hj : ¬ ¬ ((j : Int) ≠ -1) := by omega
  unfold ems22a_instance_start
  rw [if_neg (not_not.mpr hargs), if_neg (not_not.mpr hn)]
  simp only [hfree]
  rw [if_neg hj, if_neg (not_not.mpr hcount)]
  unfold init_call at hinit
  rw [if_neg (not_not.mpr hinit), Int.toNat_ofNat]
  rfl

/-- A start that passes every check and whose init callback returns an error. -/
theorem instance_start_init_error (env : transport) (initf readf deinitf : Nat) (n : Int)
    (c : Option String) (p : Int) (s : driver) (j : Nat)
    (hargs : initf ≠ 0 ∧ readf ≠ 0 ∧ deinitf ≠ 0)
    (hn : n > 0 ∧ n < EMS22A_MAX_INSTANCES)
    (hfree : free_inst_scan s EMS22A_MAX_INSTANCES.toNat 0 = (j : Int))
    (hcount : (((s.n_instances + 1) % SIZE_MOD : Nat) : Int) ≤ EMS22A_MAX_INSTANCES)
    (hinit : (env s.calls (init_call initf j)).rc ≠ 0) :
    ems22a_instance_start env initf readf deinitf n c p s =
      (-1,
        { s with
          n_instances := (s.n_instances + 1) % SIZE_MOD,
          calls := s.calls ++ [init_call initf j, deinit_call deinitf j] }) := by
  have hj : ¬ ¬ ((j : Int) ≠ -1) := by omega
  unfold ems22a_instance_start
  rw [if_neg (not_not.mpr hargs), if_neg (not_not.mpr hn)]
  simp only [hfree]
  rw [if_neg hj, if_neg (not_not.mpr hcount)]
  unfold init_call at hinit
  rw [if_pos hinit]
  simp [init_call, deinit_call]

/-- A start on a table without a `NULL` entry. -/
theorem instance_start_full (env : transport) (initf readf deinitf : Nat) (n : Int)
    (c : Option String) (p : Int) (s : driver)
    (hfree : free_inst_scan s EMS22A_MAX_INSTANCES.toNat 0 = -1) :
    ems22a_instance_start env initf readf deinitf n c p s = (-1, s) := by
  unfold ems22a_instance_start
  simp only [hfree]
  split_ifs <;> first | rfl | contradiction
/-- C6: `ems22a_instance_start` compares the chain length with
`EMS22A_MAX_INSTANCES` (3), not with `EMS22A_MAX_DAISY_CHAIN` (5): chain lengths
3 and 4 are rejected with `-1`, without any callback call and with the state
unchanged, whatever the callbacks and the state (the empty table included),
while `ems22a_update_instance` would accept an instance of chain length 3 or 4. -/
theorem C6_chain_length_three_four_rejected (env : transport) (initf readf deinitf : Nat)
    (c : Option String) (p : Int) (s : driver) :
    ems22a_instance_start env initf readf deinitf 3 c p s = (-1, s) ∧
    ems22a_instance_start env initf readf deinitf 4 c p s = (-1, s) ∧
    ems22a_instance_start sample_env 10 11 12 3 none 0 driver.initial = (-1, driver.initial) ∧
    ((3 : Int) > 0 ∧ (3 : Int) < EMS22A_MAX_DAISY_CHAIN) ∧
    ((4 : Int) > 0 ∧ (4 : Int) < EMS22A_MAX_DAISY_CHAIN) := by
  refine ⟨?_, ?_, by decide, by decide, by decide⟩
  · unfold ems22a_instance_start
    split_ifs <;> first | rfl | (exfalso; revert ‹_›; decide)
  · unfold ems22a_instance_start
    split_ifs <;> first | rfl | (exfalso; revert ‹_›; decide)

/-- C7: for every chain length that is at most 0 or at least
`EMS22A_MAX_DAISY_CHAIN`, in every state, `ems22a_instance_start` returns `-1`
and leaves the whole state as it was: no entry of the table changes and no
callback is called. -/
theorem C7_bad_chain_length_rejected (env : transport) (initf readf deinitf : Nat) (n : Int)
    (c : Option String) (p : Int) (s : driver)
    (h : n ≤ 0 ∨ n ≥ EMS22A_MAX_DAISY_CHAIN) :
    ems22a_instance_start env initf readf deinitf n c p s = (-1, s) := by
  have hbad : ¬ (n > 0 ∧ n < EMS22A_MAX_INSTANCES) := by
    unfold EMS22A_MAX_DAISY_CHAIN at h
    unfold EMS22A_MAX_INSTANCES
    omega
  unfold ems22a_instance_start
  by_cases hargs : initf ≠ 0 ∧ readf ≠ 0 ∧ deinitf ≠ 0
  · rw [if_neg (not_not.mpr hargs), if_pos hbad]
  · rw [if_pos hargs]

/-- C7, at chain length 5 on a state with a live entry. -/
theorem C7_bad_chain_length_rejected_witness :
    ((5 : Int) ≤ 0 ∨ (5 : Int) ≥ EMS22A_MAX_DAISY_CHAIN) ∧
    ems22a_instance_start sample_env 10 11 12 5 none 0 sample_state = (-1, sample_state) :=
  ⟨by decide, C7_bad_chain_length_rejected sample_env 10 11 12 5 none 0 sample_state
    (Or.inr (by decide))⟩

/-- C8: when a start passes the argument checks, finds the free entry `j` and
passes the count check, and the init callback returns a code other than 0, it
returns `-1`; after the init call it calls the deinit callback once, with `j`,
and no read callback; every entry of the table is as before (only
`n_instances` and the record of calls differ), so the entries `ems22a_update`
goes through are those of before. -/
theorem C8_init_failure_not_published (env : transport) (initf readf deinitf : Nat) (n : Int)
    (c : Option String) (p : Int) (s : driver) (j : Nat)
    (hargs : initf ≠ 0 ∧ readf ≠ 0 ∧ deinitf ≠ 0)
    (hn : n > 0 ∧ n < EMS22A_MAX_INSTANCES)
    (hfree : free_inst_scan s EMS22A_MAX_INSTANCES.toNat 0 = (j : Int))
    (hcount : (((s.n_instances + 1) % SIZE_MOD : Nat) : Int) ≤ EMS22A_MAX_INSTANCES)
    (hinit : (env s.calls (init_call initf j)).rc ≠ 0) :
    (ems22a_instance_start env initf readf deinitf n c p s).1 = -1 ∧
    (ems22a_instance_start env initf readf deinitf n c p s).2.calls =
      s.calls ++ [init_call initf j, deinit_call deinitf j] ∧
    (ems22a_instance_start env initf readf deinitf n c p s).2.instances = s.instances ∧
    (∀ m, (ems22a_instance_start env initf readf deinitf n c p s).2.slot m = s.slot m) ∧
    (∀ env2, ems22a_update env2 (ems22a_instance_start env initf readf deinitf n c p s).2 =
      (ems22a_update env2
          { s with calls := s.calls ++ [init_call initf j, deinit_call deinitf j] }).bind
        (fun r => outcome.ret
          (r.1, { r.2 with n_instances := (s.n_instances + 1) % SIZE_MOD }))) := by
  rw [instance_start_init_error env initf readf deinitf n c p s j hargs hn hfree hcount hinit]
  refine ⟨rfl, rfl, rfl, fun _ => rfl, fun env2 => ?_⟩
  exact update_loop_count env2 ((s.n_instances + 1) % SIZE_MOD) EMS22A_MAX_INSTANCES.toNat 0
    EMS22A_OK { s with calls := s.calls ++ [init_call initf j, deinit_call deinitf j] }

/-- C8, on the initial state with an init callback that returns 7. -/
theorem C8_init_failure_not_published_witness :
    (free_inst_scan driver.initial EMS22A_MAX_INSTANCES.toNat 0 = 0 ∧
      (sample_env_init_error driver.initial.calls (init_call 10 0)).rc = 7) ∧
    (ems22a_instance_start sample_env_init_error 10 11 12 1 none 0 driver.initial).1 = -1 ∧
    (ems22a_instance_start sample_env_init_error 10 11 12 1 none 0 driver.initial).2.calls =
      [init_call 10 0, deinit_call 12 0] ∧
    (ems22a_instance_start sample_env_init_error 10 11 12 1 none 0 driver.initial).2.instances =
      [inst_ptr.null, inst_ptr.null, inst_ptr.null] :=
  ⟨by decide,
   (C8_init_failure_not_published sample_env_init_error 10 11 12 1 none 0 driver.initial 0
      (by decide) (by decide) (by decide) (by decide) (by decide)).1,
   (C8_init_failure_not_published sample_env_init_error 10 11 12 1 none 0 driver.initial 0
      (by decide) (by decide) (by decide) (by decide) (by decide)).2.1,
   (C8_init_failure_not_published sample_env_init_error 10 11 12 1 none 0 driver.initial 0
      (by decide) (by decide) (by decide) (by decide) (by decide)).2.2.1⟩

/-- C10: on `sample_started`, where handle 0 is live, `ems22a_instance_end(0)`
returns `EMS22A_OK` and calls deinit, but entry 0 is not set to `NULL`: it keeps
pointing to the freed instance.  `CHECK_ID(0)` therefore still passes: a second
`ems22a_instance_end(0)`, `ems22a_read_angle(0, 0)` and `ems22a_update` go on to
use the freed instance instead of failing or skipping the entry, and the next
start takes entry 1 because entry 0 is not free. -/
theorem C10_end_leaves_entry_set :
    sample_started.slot 0 = inst_ptr.valid sample_inst ∧
    ems22a_instance_end 0 sample_started = outcome.ret (EMS22A_OK, sample_ended) ∧
    sample_ended.slot 0 = inst_ptr.freed ∧
    sample_ended.slot 0 ≠ inst_ptr.null ∧
    ems22a_instance_end 0 sample_ended = outcome.undef ∧
    ems22a_instance_end 0 sample_ended ≠ outcome.ret (EMS22A_FAILURE, sample_ended) ∧
    ems22a_read_angle 0 0 sample_ended = outcome.undef ∧
    ems22a_update sample_env sample_ended = outcome.undef ∧
    (ems22a_instance_start sample_env 10 11 12 1 none 0 sample_ended).1 = 1 := by
  decide

/-! ## Properties of `ems22a_read_angle` and of handle validation -/

/-- C11: for a handle that is negative, at least `EMS22A_MAX_INSTANCES`, or
whose entry is `NULL`, `ems22a_instance_end` returns `EMS22A_FAILURE` and leaves
the whole state (table, count, record of callback calls) as it was, and
`ems22a_read_angle` returns `EMS22A_FAILURE` without writing `*angle`. -/
theorem C11_invalid_handle_rejected (id j : Int) (s : driver)
    (h : id < 0 ∨ id ≥ EMS22A_MAX_INSTANCES ∨ s.slot id.toNat = inst_ptr.null) :
    ems22a_instance_end id s = outcome.ret (EMS22A_FAILURE, s) ∧
    ems22a_read_angle id j s = outcome.ret (EMS22A_FAILURE, none) := by
  unfold ems22a_instance_end ems22a_read_angle
  by_cases h1 : id < EMS22A_MAX_INSTANCES
  · by_cases h2 : id > -1
    · have h3 : s.slot id.toNat = inst_ptr.null := by
        rcases h with h | h | h
        · omega
        · omega
        · exact h
      rw [if_neg (not_not.mpr h1), if_neg (not_not.mpr h2), if_neg (not_not.mpr h1),
        if_neg (not_not.mpr h2), h3]
      exact ⟨rfl, rfl⟩
    · rw [if_neg (not_not.mpr h1), if_pos h2, if_neg (not_not.mpr h1), if_pos h2]
      exact ⟨rfl, rfl⟩
  · rw [if_pos h1, if_pos h1]
    exact ⟨rfl, rfl⟩

/-- C11, at the handles -1 and 3 and at the never started handle 1 of
`sample_state`. -/
theorem C11_invalid_handle_rejected_witness :
    sample_state.slot 1 = inst_ptr.null ∧
    ems22a_instance_end 1 sample_state = outcome.ret (EMS22A_FAILURE, sample_state) ∧
    ems22a_read_angle 1 0 sample_state = outcome.ret (EMS22A_FAILURE, none) ∧
    ems22a_instance_end (-1) sample_state = outcome.ret (EMS22A_FAILURE, sample_state) ∧
    ems22a_read_angle 3 0 sample_state = outcome.ret (EMS22A_FAILURE, none) :=
  ⟨by decide,
   (C11_invalid_handle_rejected 1 0 sample_state (Or.inr (Or.inr (by decide)))).1,
   (C11_invalid_handle_rejected 1 0 sample_state (Or.inr (Or.inr (by decide)))).2,
   (C11_invalid_handle_rejected (-1) 0 sample_state (Or.inl (by decide))).1,
   (C11_invalid_handle_rejected 3 0 sample_state (Or.inr (Or.inl (by decide)))).2⟩

/-- The result of `ems22a_read_angle` on a live handle. -/
theorem read_angle_live (id j : Int) (s : driver) (inst : instance_t)
    (hid0 : id > -1) (hid1 : id < EMS22A_MAX_INSTANCES)
    (hslot : s.slot id.toNat = inst_ptr.valid inst) :
    ems22a_read_angle id j s =
      if ¬ (j < EMS22A_MAX_DAISY_CHAIN) then outcome.ret (EMS22A_FAILURE, none)
      else if ¬ (j > -1) then outcome.ret (EMS22A_FAILURE, none)
      else if ¬ (j < inst.n_daisy_chain) then outcome.ret (EMS22A_FAILURE, none)
      else
        match inst.readings[j.toNat]? with
        | some a => outcome.ret (EMS22A_OK, some a)
        | none => outcome.undef := by
  unfold ems22a_read_angle
  rw [if_neg (not_not.mpr hid1), if_neg (not_not.mpr hid0), hslot]

/-- C12: on a live handle whose readings buffer has `n_daisy_chain` elements,
`ems22a_read_angle` returns `EMS22A_OK` with `*angle = readings[j]` when
`0 <= j < EMS22A_MAX_DAISY_CHAIN` and `j < n_daisy_chain`, and returns
`EMS22A_FAILURE` without writing `*angle` for every other `j`.  The function
only reads the module state and calls no callback. -/
theorem C12_read_angle_chain_index (id j : Int) (s : driver) (inst : instance_t)
    (hid0 : id > -1) (hid1 : id < EMS22A_MAX_INSTANCES)
    (hslot : s.slot id.toNat = inst_ptr.valid inst)
    (hbuf : inst.readings.length = inst.n_daisy_chain.toNat) :
    ((0 ≤ j ∧ j < EMS22A_MAX_DAISY_CHAIN ∧ j < inst.n_daisy_chain) →
      ∃ a, inst.readings[j.toNat]? = some a ∧
        ems22a_read_angle id j s = outcome.ret (EMS22A_OK, some a)) ∧
    (¬ (0 ≤ j ∧ j < EMS22A_MAX_DAISY_CHAIN ∧ j < inst.n_daisy_chain) →
      ems22a_read_angle id j s = outcome.ret (EMS22A_FAILURE, none)) := by
  rw [read_angle_live id j s inst hid0 hid1 hslot]
  constructor
  · rintro ⟨h0, h1, h2⟩
    have hlt : j.toNat < inst.readings.length := by omega
    refine ⟨inst.readings[j.toNat], List.getElem?_eq_getElem hlt, ?_⟩
    rw [if_neg (not_not.mpr h1), if_neg (not_not.mpr (show j > -1 by omega)),
      if_neg (not_not.mpr h2), List.getElem?_eq_getElem hlt]
  · intro hbad
    by_cases h1 : j < EMS22A_MAX_DAISY_CHAIN
    · by_cases h0 : j > -1
      · have h2 : ¬ j < inst.n_daisy_chain := fun h2 => hbad ⟨by omega, h1, h2⟩
        rw [if_neg (not_not.mpr h1), if_neg (not_not.mpr h0), if_pos h2]
      · rw [if_neg (not_not.mpr h1), if_pos h0]
    · rw [if_pos h1]

/-- C12, on `sample_state`, whose entry 0 has chain length 2 and readings 7, 8. -/
theorem C12_read_angle_chain_index_witness :
    (sample_state.slot 0 = inst_ptr.valid sample_inst2 ∧ sample_inst2.n_daisy_chain = 2) ∧
    (∃ a, sample_inst2.readings[(1 : Int).toNat]? = some a ∧
      ems22a_read_angle 0 1 sample_state = outcome.ret (EMS22A_OK, some a)) ∧
    ems22a_read_angle 0 2 sample_state = outcome.ret (EMS22A_FAILURE, none) :=
  ⟨by decide,
   (C12_read_angle_chain_index 0 1 sample_state sample_inst2 (by decide) (by decide)
      (by decide) (by decide)).1 (by decide),
   (C12_read_angle_chain_index 0 2 sample_state sample_inst2 (by decide) (by decide)
      (by decide) (by decide)).2 (by decide)⟩

/-- The scan returns `-1` or the index of a `NULL` entry within its range. -/
theorem free_inst_scan_spec (s : driver) (k : Nat) :
    ∀ j, free_inst_scan s k j = -1 ∨
      ∃ a : Nat, j ≤ a ∧ a < j + k ∧ free_inst_scan s k j = (a : Int) ∧
        s.slot a = inst_ptr.null := by
  induction k with
  | zero => intro j; exact Or.inl rfl
  | succ k ih =>
    intro j
    unfold free_inst_scan
    by_cases h : s.slot j = inst_ptr.null
    · rw [if_pos h]
      exact Or.inr ⟨j, by omega, by omega, rfl, h⟩
    · rw [if_neg h]
      rcases ih (j + 1) with h1 | ⟨a, h1, h2, h3, h4⟩
      · exact Or.inl h1
      · exact Or.inr ⟨a, by omega, by omega, h3, h4⟩

/-- What `ems22a_instance_start` does, by cases: either it returns `-1` and
leaves the table as it was, or every check passed, the init callback returned
0 and the new instance is stored at the free index it returns. -/
theorem instance_start_cases (env : transport) (initf readf deinitf : Nat) (n : Int)
    (c : Option String) (p : Int) (s : driver) :
    ((ems22a_instance_start env initf readf deinitf n c p s).1 = -1 ∧
      (ems22a_instance_start env initf readf deinitf n c p s).2.instances = s.instances) ∨
    ∃ a : Nat, a < 3 ∧ s.slot a = inst_ptr.null ∧
      (initf ≠ 0 ∧ readf ≠ 0 ∧ deinitf ≠ 0) ∧
      (n > 0 ∧ n < EMS22A_MAX_INSTANCES) ∧
      ems22a_instance_start env initf readf deinitf n c p s =
        ((a : Int),
          { instances := s.instances.set a
              (inst_ptr.valid (started_instance initf readf deinitf n c p)),
            n_instances := (s.n_instances + 1) % SIZE_MOD,
            calls := s.calls ++ [init_call initf a] }) := by
  by_cases hargs : initf ≠ 0 ∧ readf ≠ 0 ∧ deinitf ≠ 0
  swap
  · left
    unfold ems22a_instance_start
    rw [if_pos hargs]
    exact ⟨rfl, rfl⟩
  by_cases hn : n > 0 ∧ n < EMS22A_MAX_INSTANCES
  swap
  · left
    unfold ems22a_instance_start
    rw [if_neg (not_not.mpr hargs), if_pos hn]
    exact ⟨rfl, rfl⟩
  rcases free_inst_scan_spec s EMS22A_MAX_INSTANCES.toNat 0 with hfull | ⟨a, _, ha, hfree, hnull⟩
  · left
    rw [instance_start_full env initf readf deinitf n c p s hfull]
    exact ⟨rfl, rfl⟩
  by_cases hcount : (((s.n_instances + 1) % SIZE_MOD : Nat) : Int) ≤ EMS22A_MAX_INSTANCES
  swap
  · left
    have hj : ¬ ¬ ((a : Int) ≠ -1) := by omega
    unfold ems22a_instance_start
    rw [if_neg (not_not.mpr hargs), if_neg (not_not.mpr hn)]
    simp only [hfree]
    rw [if_neg hj, if_pos hcount]
    exact ⟨rfl, rfl⟩
  by_cases hinit : (env s.calls (init_call initf a)).rc = 0
  · right
    refine ⟨a, by rw [max_instances_toNat] at ha; omega, hnull, hargs, hn, ?_⟩
    exact instance_start_ok env initf readf deinitf n c p s a hargs hn hfree hcount hinit
  · left
    rw [instance_start_init_error env initf readf deinitf n c p s a hargs hn hfree hcount hinit]
    exact ⟨rfl, rfl⟩

/-- C13: when `ems22a_instance_start` succeeds on a table of
`EMS22A_MAX_INSTANCES` entries and returns the handle `h` for chain length `n`,
`ems22a_read_angle(h, j)` on the state it leaves returns `EMS22A_OK` with angle 0
for every `j` in `[0, n)`. -/
theorem C13_fresh_readings_zero (env : transport) (initf readf deinitf : Nat) (n : Int)
    (c : Option String) (p : Int) (s : driver)
    (hlen : s.instances.length = EMS22A_MAX_INSTANCES.toNat)
    (hok : (ems22a_instance_start env initf readf deinitf n c p s).1 ≠ -1)
    (j : Int) (hj0 : 0 ≤ j) (hj1 : j < n) :
    ems22a_read_angle (ems22a_instance_start env initf readf deinitf n c p s).1 j
      (ems22a_instance_start env initf readf deinitf n c p s).2 =
        outcome.ret (EMS22A_OK, some 0) := by
  rcases instance_start_cases env initf readf deinitf n c p s with
    ⟨hfail, _⟩ | ⟨a, ha, _, _, hn, heq⟩
  · exact absurd hfail hok
  rw [heq]
  rw [max_instances_toNat] at hlen
  have hmax : EMS22A_MAX_INSTANCES = 3 := rfl
  have hchain : EMS22A_MAX_DAISY_CHAIN = 5 := rfl
  have hslot : driver.slot
      { instances := s.instances.set a
          (inst_ptr.valid (started_instance initf readf deinitf n c p)),
        n_instances := (s.n_instances + 1) % SIZE_MOD,
        calls := s.calls ++ [init_call initf a] } ((a : Int)).toNat =
      inst_ptr.valid (started_instance initf readf deinitf n c p) := by
    rw [Int.toNat_ofNat]
    exact getD_set_same s.instances a _ (by omega)
  rw [read_angle_live _ j _ _ (by omega) (by omega) hslot]
  have hn2 : (started_instance initf readf deinitf n c p).n_daisy_chain = n := rfl
  have hrd : (started_instance initf readf deinitf n c p).readings[j.toNat]? = some 0 := by
    show (List.replicate n.toNat (0 : Int))[j.toNat]? = some 0
    rw [List.getElem?_replicate, if_pos (by omega)]
  rw [if_neg (not_not.mpr (show j < EMS22A_MAX_DAISY_CHAIN by omega)),
    if_neg (not_not.mpr (show j > -1 by omega)),
    if_neg (not_not.mpr (show j < (started_instance initf readf deinitf n c p).n_daisy_chain by
      rw [hn2]; exact hj1)), hrd]

/-- C13, for a start with chain length 2 on the initial state. -/
theorem C13_fresh_readings_zero_witness :
    (ems22a_instance_start sample_env 10 11 12 2 none 0 driver.initial).1 = 0 ∧
    ems22a_read_angle (ems22a_instance_start sample_env 10 11 12 2 none 0 driver.initial).1 1
      (ems22a_instance_start sample_env 10 11 12 2 none 0 driver.initial).2 =
        outcome.ret (EMS22A_OK, some 0) :=
  ⟨by decide,
   C13_fresh_readings_zero sample_env 10 11 12 2 none 0 driver.initial (by decide) (by decide)
     1 (by decide) (by decide)⟩

/-- C14: for frames with both fault flags clear, the angle `reading2angle`
writes does not decrease when the reading grows; the reading 0 gives the angle
0 and the reading 1023 gives the angle 359. -/
theorem C14_angle_monotone (inst : instance_t) (f1 f2 : frame)
    (hc1 : f1.cordic_oflow = 0) (hl1 : f1.linearity_alarm = 0)
    (hc2 : f2.cordic_oflow = 0) (hl2 : f2.linearity_alarm = 0)
    (hle : f1.reading ≤ f2.reading) :
    (reading2angle inst f1).1 = EMS22A_OK ∧ (reading2angle inst f2).1 = EMS22A_OK ∧
    (reading2angle inst f1).2 ≤ (reading2angle inst f2).2 ∧
    (f1.reading = 0 → (reading2angle inst f1).2 = 0) ∧
    (f2.reading = 1023 → (reading2angle inst f2).2 = 359) := by
  rw [reading2angle_no_fault inst f1 hc1 hl1, reading2angle_no_fault inst f2 hc2 hl2]
  refine ⟨rfl, rfl, ?_, ?_, ?_⟩
  · show ((360 * f1.reading / 1024 : Nat) : Int) ≤ ((360 * f2.reading / 1024 : Nat) : Int)
    have : 360 * f1.reading / 1024 ≤ 360 * f2.reading / 1024 :=
      Nat.div_le_div_right (Nat.mul_le_mul_left 360 hle)
    exact_mod_cast this
  · intro h0
    show ((360 * f1.reading / 1024 : Nat) : Int) = 0
    rw [h0]
    rfl
  · intro h1
    show ((360 * f2.reading / 1024 : Nat) : Int) = 359
    rw [h1]
    rfl

/-- C14, at the frames `0x0000` (reading 0) and `0xFFC0` (reading 1023). -/
theorem C14_angle_monotone_witness :
    (frame.reading { data := 0 } = 0 ∧ frame.reading { data := 0xFFC0 } = 1023) ∧
    (reading2angle sample_inst { data := 0 }).2 = 0 ∧
    (reading2angle sample_inst { data := 0xFFC0 }).2 = 359 :=
  ⟨by decide,
   (C14_angle_monotone sample_inst { data := 0 } { data := 0xFFC0 } (by decide) (by decide)
      (by decide) (by decide) (by decide)).2.2.2.1 (by decide),
   (C14_angle_monotone sample_inst { data := 0 } { data := 0xFFC0 } (by decide) (by decide)
      (by decide) (by decide) (by decide)).2.2.2.2 (by decide)⟩

/-! ## Invariants of the states the external interface reaches -/

theorem getD_set_cases (l : List inst_ptr) (a m : Nat) (p : inst_ptr) :
    (l.set a p).getD m inst_ptr.null = p ∨
      (l.set a p).getD m inst_ptr.null = l.getD m inst_ptr.null := by
  by_cases h : a = m
  · by_cases hlt : a < l.length
    · left
      rw [← h]
      exact getD_set_same l a p hlt
    · right
      rw [List.getD_eq_getElem?_getD, List.getD_eq_getElem?_getD, List.getElem?_set, if_pos h,
        if_neg hlt, ← h, List.getElem?_eq_none (by omega)]
  · right
    exact getD_set_other l a m p h

/-- The chain loop keeps every reading in `[0, 359]`. -/
theorem poll_chain_range (env : transport) (i : Int) (inst : instance_t) (k : Nat) :
    ∀ (j : Nat) (calls : List cb_call) (rd : List Int) (fl : Nat),
      (∀ x ∈ rd, 0 ≤ x ∧ x ≤ 359) →
      ∀ x ∈ (poll_chain env i inst k j calls rd fl).2.1, 0 ≤ x ∧ x ≤ 359 := by
  induction k with
  | zero => intro j calls rd fl h; exact h
  | succ k ih =>
    intro j calls rd fl h
    rw [poll_chain_succ]
    by_cases hok : position_ok inst (read_reply env inst i calls 0)
    · rw [if_pos hok]
      apply ih
      intro x hx
      rcases List.mem_or_eq_of_mem_set hx with hx | hx
      · exact h x hx
      · have hr := reading2angle_ok_range inst _ hok.2
        have hs : to_short (decode_reply inst (read_reply env inst i calls 0)).2 =
            (decode_reply inst (read_reply env inst i calls 0)).2 :=
          to_short_of_range _ (by unfold decode_reply; omega) (by unfold decode_reply; omega)
        rw [hx, hs]
        exact hr
    · rw [if_neg hok]
      exact ih _ _ _ _ h

theorem started_instance_wf (initf readf deinitf : Nat) (n : Int) (c : Option String) (p : Int)
    (hn : n > 0 ∧ n < EMS22A_MAX_INSTANCES) (hrf : readf ≠ 0) :
    (started_instance initf readf deinitf n c p).wf := by
  have hmax : EMS22A_MAX_INSTANCES = 3 := rfl
  have hchain : EMS22A_MAX_DAISY_CHAIN = 5 := rfl
  refine ⟨⟨hn.1, ?_⟩, ?_, ?_, rfl, hrf, ?_⟩
  · show n < EMS22A_MAX_DAISY_CHAIN
    omega
  · exact List.length_replicate _ _
  · exact List.length_replicate _ _
  · intro x hx
    have hx0 : x = 0 := (List.mem_replicate.mp hx).2
    rw [hx0]
    exact ⟨le_refl _, by decide⟩

theorem wf_of_instances_eq (s s1 : driver) (h : s1.instances = s.instances) (hwf : s.wf) :
    s1.wf := by
  intro m inst hm
  apply hwf m inst
  unfold driver.slot at hm ⊢
  rw [← h]
  exact hm

/-- Storing a well-formed instance, or the pointer to a freed one, in an
entry keeps the table well-formed. -/
theorem wf_of_set (s s1 : driver) (a : Nat) (p : inst_ptr)
    (h : s1.instances = s.instances.set a p) (hwf : s.wf)
    (hp : ∀ inst, p = inst_ptr.valid inst → inst.wf) : s1.wf := by
  intro m inst hm
  unfold driver.slot at hm
  rw [h] at hm
  rcases getD_set_cases s.instances a m p with h1 | h1
  · rw [h1] at hm
    exact hp inst hm
  · rw [h1] at hm
    exact hwf m inst hm

theorem initial_wf : driver.initial.wf := by
  intro m inst hm
  rcases m with _ | _ | _ | m <;> exact inst_ptr.noConfusion hm

theorem instance_start_wf (env : transport) (initf readf deinitf : Nat) (n : Int)
    (c : Option String) (p : Int) (s : driver) (hwf : s.wf) :
    (ems22a_instance_start env initf readf deinitf n c p s).2.wf := by
  rcases instance_start_cases env initf readf deinitf n c p s with
    ⟨_, hsame⟩ | ⟨a, _, _, hargs, hn, heq⟩
  · exact wf_of_instances_eq s _ hsame hwf
  · rw [heq]
    apply wf_of_set s _ a _ rfl hwf
    intro inst hinst
    injection hinst with hinst
    rw [← hinst]
    exact started_instance_wf initf readf deinitf n c p hn hargs.2.1

/-- What `ems22a_instance_end` does, by cases. -/
theorem instance_end_cases (id : Int) (s : driver) :
    ems22a_instance_end id s = outcome.undef ∨
    ems22a_instance_end id s = outcome.ret (EMS22A_FAILURE, s) ∨
    ∃ inst, s.slot id.toNat = inst_ptr.valid inst ∧
      ems22a_instance_end id s = outcome.ret (EMS22A_OK,
        { instances := s.instances.set id.toNat inst_ptr.freed,
          n_instances := s.n_instances,
          calls := if inst.deinitf = 0 then s.calls
            else s.calls ++ [deinit_call inst.deinitf id] }) := by
  unfold ems22a_instance_end
  by_cases h1 : id < EMS22A_MAX_INSTANCES
  · by_cases h2 : id > -1
    · rw [if_neg (not_not.mpr h1), if_neg (not_not.mpr h2)]
      cases hs : s.slot id.toNat with
      | null => exact Or.inr (Or.inl rfl)
      | freed => exact Or.inl rfl
      | valid inst =>
        refine Or.inr (Or.inr ⟨inst, rfl, ?_⟩)
        by_cases hd : inst.deinitf = 0
        · simp [hd]
        · simp [hd, deinit_call]
    · rw [if_neg (not_not.mpr h1), if_pos h2]
      exact Or.inr (Or.inl rfl)
  · rw [if_pos h1]
    exact Or.inr (Or.inl rfl)

theorem instance_end_wf (id : Int) (s : driver) (rc : ems22a_rc_t) (s1 : driver) (hwf : s.wf)
    (h : ems22a_instance_end id s = outcome.ret (rc, s1)) : s1.wf := by
  rcases instance_end_cases id s with h1 | h1 | ⟨inst, _, h1⟩
  · rw [h1] at h
    exact outcome.noConfusion h
  · rw [h1] at h
    injection h with h
    injection h with _ h
    rw [← h]
    exact hwf
  · rw [h1] at h
    injection h with h
    injection h with _ h
    rw [← h]
    apply wf_of_set s _ id.toNat inst_ptr.freed rfl hwf
    intro inst2 h2
    exact inst_ptr.noConfusion h2

/-- On a well-formed table an update cycle never waits on the lock and never
takes the chain-length failure path: where its behaviour is defined it returns
`EMS22A_OK` or `EMS22A_WARNING`, keeps the table well-formed and leaves
`n_instances` and the set of freed entries as they were. -/
theorem update_instance_wf (env : transport) (i : Int) (s : driver) (hwf : s.wf) :
    ems22a_update_instance env i s = outcome.undef ∨
    ∃ rc s1, ems22a_update_instance env i s = outcome.ret (rc, s1) ∧ s1.wf ∧
      (rc = EMS22A_OK ∨ rc = EMS22A_WARNING) ∧ s1.n_instances = s.n_instances := by
  by_cases h1 : i < EMS22A_MAX_INSTANCES
  swap
  · left
    unfold ems22a_update_instance
    rw [if_pos h1]
  by_cases h2 : i > -1
  swap
  · left
    unfold ems22a_update_instance
    rw [if_neg (not_not.mpr h1), if_pos h2]
  cases hs : s.slot i.toNat with
  | null =>
    left
    unfold ems22a_update_instance
    rw [if_neg (not_not.mpr h1), if_neg (not_not.mpr h2), hs]
  | freed =>
    left
    unfold ems22a_update_instance
    rw [if_neg (not_not.mpr h1), if_neg (not_not.mpr h2), hs]
  | valid inst =>
    right
    obtain ⟨hn, hlen, hz, hlock, hrf, hrange⟩ := hwf i.toNat inst hs
    rw [update_instance_eq env i s inst h2 h1 hs hlock hn hrf]
    refine ⟨_, _, rfl, ?_, ?_, rfl⟩
    · apply wf_of_set s _ i.toNat _ rfl hwf
      intro inst2 h
      injection h with h
      rw [← h]
      refine ⟨hn, ?_, hz, rfl, hrf, ?_⟩
      · show (poll_chain env i inst inst.n_daisy_chain.toNat 0 s.calls inst.readings 0).2.1.length
          = inst.n_daisy_chain.toNat
        rw [poll_chain_length]
        exact hlen
      · exact poll_chain_range env i inst _ 0 s.calls inst.readings 0 hrange
    · by_cases hf :
        (poll_chain env i inst inst.n_daisy_chain.toNat 0 s.calls inst.readings 0).2.2 > 0
      · rw [if_pos hf]
        exact Or.inr rfl
      · rw [if_neg hf]
        exact Or.inl rfl

/-- The loop of `ems22a_update` on a well-formed table: where its behaviour
is defined it returns, with `EMS22A_OK` or `EMS22A_WARNING` if it started with
one of them, and keeps the table well-formed and `n_instances` as it was. -/
theorem update_loop_wf (env : transport) (k : Nat) :
    ∀ (i : Nat) (rc : ems22a_rc_t) (s : driver), s.wf →
      update_loop env k i rc s = outcome.undef ∨
      ∃ rc1 s1, update_loop env k i rc s = outcome.ret (rc1, s1) ∧ s1.wf ∧
        ((rc = EMS22A_OK ∨ rc = EMS22A_WARNING) → (rc1 = EMS22A_OK ∨ rc1 = EMS22A_WARNING)) ∧
        s1.n_instances = s.n_instances := by
  induction k with
  | zero =>
    intro i rc s hwf
    exact Or.inr ⟨rc, s, rfl, hwf, fun h => h, rfl⟩
  | succ k ih =>
    intro i rc s hwf
    by_cases h : s.slot i = inst_ptr.null
    · rw [update_loop_succ_null env k i rc s h]
      exact ih (i + 1) rc s hwf
    · rw [update_loop_succ_live env k i rc s h]
      rcases update_instance_wf env (i : Int) s hwf with hu | ⟨rc1, s1, hu, hwf1, hrc1, hn1⟩
      · rw [hu]
        exact Or.inl rfl
      · rw [hu]
        show update_loop env k (i + 1) rc1 s1 = outcome.undef ∨ _
        rcases ih (i + 1) rc1 s1 hwf1 with h2 | ⟨rc2, s2, h2, hwf2, hrc2, hn2⟩
        · exact Or.inl h2
        · exact Or.inr ⟨rc2, s2, h2, hwf2, fun _ => hrc2 hrc1, hn2.trans hn1⟩

theorem api_step_wf (env : transport) (c : api_call) (s s1 : driver) (hwf : s.wf)
    (h : api_step env c s = outcome.ret s1) : s1.wf := by
  cases c with
  | instance_start initf readf deinitf n cs p =>
    injection h with h
    rw [← h]
    exact instance_start_wf env initf readf deinitf n cs p s hwf
  | instance_end id =>
    replace h : (ems22a_instance_end id s).bind (fun r => outcome.ret r.2) = outcome.ret s1 := h
    cases he : ems22a_instance_end id s with
    | ret r =>
      rw [he] at h
      injection h with h
      rw [← h]
      exact instance_end_wf id s r.1 r.2 hwf he
    | spins => rw [he] at h; exact outcome.noConfusion h
    | undef => rw [he] at h; exact outcome.noConfusion h
  | update =>
    replace h : (ems22a_update env s).bind (fun r => outcome.ret r.2) = outcome.ret s1 := h
    rcases update_loop_wf env EMS22A_MAX_INSTANCES.toNat 0 EMS22A_OK s hwf with
      hu | ⟨rc1, s2, hu, hwf2, _, _⟩
    · have hu2 : ems22a_update env s = outcome.undef := hu
      rw [hu2] at h
      exact outcome.noConfusion h
    · have hu2 : ems22a_update env s = outcome.ret (rc1, s2) := hu
      rw [hu2] at h
      injection h with h
      rw [← h]
      exact hwf2
  | read_angle id j =>
    replace h : (ems22a_read_angle id j s).bind (fun _ => outcome.ret s) = outcome.ret s1 := h
    cases he : ems22a_read_angle id j s with
    | ret r =>
      rw [he] at h
      injection h with h
      rw [← h]
      exact hwf
    | spins => rw [he] at h; exact outcome.noConfusion h
    | undef => rw [he] at h; exact outcome.noConfusion h

/-- Every state a run of the external interface reaches from a well-formed
table is well-formed. -/
theorem api_run_wf (env : transport) (cs : List api_call) :
    ∀ (s s1 : driver), s.wf → api_run env cs s = outcome.ret s1 → s1.wf := by
  induction cs with
  | nil =>
    intro s s1 hwf h
    injection h with h
    rw [← h]
    exact hwf
  | cons c cs ih =>
    intro s s1 hwf h
    replace h : (api_step env c s).bind (api_run env cs) = outcome.ret s1 := h
    cases hc : api_step env c s with
    | ret s2 =>
      rw [hc] at h
      exact ih s2 s1 (api_step_wf env c s s2 hwf hc) h
    | spins => rw [hc] at h; exact outcome.noConfusion h
    | undef => rw [hc] at h; exact outcome.noConfusion h

/-- C16: in every state reached from the initial state by a run of starts,
ends, updates and angle reads, every entry that points to an allocated
instance has `n_daisy_chain` in `[1, EMS22A_MAX_DAISY_CHAIN)` and `readings` and
`zeroes` buffers of exactly `n_daisy_chain` elements. -/
theorem C16_registry_invariant (env : transport) (cs : List api_call) (s : driver)
    (hrun : api_run env cs driver.initial = outcome.ret s)
    (m : Nat) (inst : instance_t) (hlive : s.slot m = inst_ptr.valid inst) :
    (1 ≤ inst.n_daisy_chain ∧ inst.n_daisy_chain < EMS22A_MAX_DAISY_CHAIN) ∧
    inst.readings.length = inst.n_daisy_chain.toNat ∧
    inst.zeroes.length = inst.n_daisy_chain.toNat := by
  obtain ⟨hn, hr, hz, _, _, _⟩ := api_run_wf env cs driver.initial s initial_wf hrun m inst hlive
  exact ⟨⟨by omega, hn.2⟩, hr, hz⟩

/-- C16, on the state `sample_run` leaves, at its live entry 0. -/
theorem C16_registry_invariant_witness :
    api_run sample_env sample_run driver.initial = outcome.ret sample_run_final ∧
    sample_run_final.slot 0 = inst_ptr.valid
      { initf := 10, readf := 11, deinitf := 12, readings := [0, 359], zeroes := [0, 0],
        n_daisy_chain := 2, lock := 0, disable_parity_checks := 0, comment := none } ∧
    ((1 ≤ (2 : Int) ∧ (2 : Int) < EMS22A_MAX_DAISY_CHAIN) ∧
      [(0 : Int), 359].length = (2 : Int).toNat ∧ [(0 : Int), 0].length = (2 : Int).toNat) :=
  ⟨by decide, by decide,
   C16_registry_invariant sample_env sample_run sample_run_final (by decide) 0
     { initf := 10, readf := 11, deinitf := 12, readings := [0, 359], zeroes := [0, 0],
       n_daisy_chain := 2, lock := 0, disable_parity_checks := 0, comment := none }
     (by decide)⟩

end Ems22a
